import Mathlib

/-!
# Verification of the onedrive-versions resolution core

Shallow embedding of the local-path → remote-item resolution engine of the
`onedrive-versions` VS Code extension (`src/extension.ts`, `src/resolver-utils.ts`).

Modelling conventions:
* Pure TypeScript functions become Lean functions with the source's names.
* JavaScript errors are modelled as their message strings; thrown errors become
  `Except String _`.  The source classifies errors by substring matching on the
  message (`isGraphNotFound`, `isGraphAccessDenied`), which is modelled exactly.
* The Microsoft Graph network layer (`fetchJson`) is modelled as an environment
  (`GraphEnv`) mapping endpoint URL strings to responses, one field per response
  shape used by the resolver.  Functions that issue requests additionally return
  the list of endpoint URLs they requested, in order, so that theorems can speak
  about which lookups were (not) attempted.
* `node:path` is modelled with POSIX semantics (separator `/`, absolute paths
  start with `/`), which is the platform-independent core of the functions used
  (`resolve`, `relative`, `isAbsolute`, `parse(..).root`).
* The WHATWG `URL` class is modelled for `scheme://authority/path` URLs: `origin`
  is `scheme://authority` and `pathname` is the part of the URL from the first
  `/` after the authority up to any `?` or `#`.  Construction of a `URL` from a
  malformed string throws, modelled as `Except`/`Option` failure.
* `Array.prototype.sort` with a consistent comparator is stable (ES2019); it is
  modelled by a stable insertion sort, descending by an integer key.  The key
  `new Date(s).getTime()` is an explicit parameter `parseTime : String → Int`.
* `Buffer.from(url, "utf8").toString("base64")` is modelled by an explicit UTF-8
  encoder and base64 encoder over byte values (`Nat`s below 256).
-/

namespace OneDriveVersions

/-! ### Character-level models of the JavaScript string primitives

Defined by structural recursion over the character list so that concrete
instances evaluate inside the kernel. -/

/-- ASCII lower-casing of one character (the case relevant to the origins,
paths and protocol tags compared by the source). -/
def charToLower (c : Char) : Char :=
  if 65 ≤ c.toNat ∧ c.toNat ≤ 90 then Char.ofNat (c.toNat + 32) else c

/-- `s.toLowerCase()` (ASCII). -/
def toLowerStr (s : String) : String :=
  String.mk (s.data.map charToLower)

/-- JavaScript `trim` whitespace (space, tab, line feed, carriage return). -/
def isJsWhitespace (c : Char) : Bool :=
  c == ' ' || c == '\t' || c == '\n' || c == '\r'

/-- `s.trim()`. -/
def trimStr (s : String) : String :=
  String.mk (((s.data.dropWhile isJsWhitespace).reverse.dropWhile isJsWhitespace).reverse)

/-- `s.startsWith(pre)`. -/
def startsWithStr (s pre : String) : Bool :=
  pre.data.isPrefixOf s.data

/-- Split a character list at every occurrence of a separator character
(`acc` holds the reversed current field). -/
def splitOnCharAux (sepc : Char) : List Char → List Char → List (List Char)
  | [], acc => [acc.reverse]
  | c :: rest, acc =>
      if c = sepc then acc.reverse :: splitOnCharAux sepc rest []
      else splitOnCharAux sepc rest (c :: acc)

/-- `s.split(sep)` for a one-character separator. -/
def splitOnChar (sepc : Char) (s : String) : List String :=
  (splitOnCharAux sepc s.data []).map String.mk

/-- Split a character list at every (non-overlapping, leftmost-first)
occurrence of `://`. -/
def splitProtoAux : List Char → List Char → List (List Char)
  | ':' :: '/' :: '/' :: rest, acc => acc.reverse :: splitProtoAux rest []
  | c :: rest, acc => splitProtoAux rest (c :: acc)
  | [], acc => [acc.reverse]

/-- `s.split("://")`, as used by the URL parser model. -/
def splitProto (s : String) : List String :=
  (splitProtoAux s.data []).map String.mk

/-- `message.includes(pattern)` on JavaScript strings. -/
def strIncludes (msg pat : String) : Bool :=
  decide (pat.data <:+: msg.data)

/-- `isGraphNotFound` from `src/extension.ts` / `src/resolver-utils.ts`:
an error is "not found" when its message contains `Graph request failed (404)`
or `itemNotFound`. -/
def isGraphNotFound (message : String) : Bool :=
  strIncludes message "Graph request failed (404)" ∨ strIncludes message "itemNotFound"

/-- `isGraphAccessDenied` from `src/extension.ts` / `src/resolver-utils.ts`:
an error is "access denied" when its message contains
`Graph request failed (403)` or `accessDenied`. -/
def isGraphAccessDenied (message : String) : Bool :=
  strIncludes message "Graph request failed (403)" ∨ strIncludes message "accessDenied"

/-- UTF-8 encoding of a single code point (a `Char.toNat` value) as byte values. -/
def utf8EncodeCodepoint (n : Nat) : List Nat :=
  if n < 128 then [n]
  else if n < 2048 then [192 + n / 64, 128 + n % 64]
  else if n < 65536 then [224 + n / 4096, 128 + (n / 64) % 64, 128 + n % 64]
  else [240 + n / 262144, 128 + (n / 4096) % 64, 128 + (n / 64) % 64, 128 + n % 64]

/-- The UTF-8 bytes of a string, as `Nat` values below 256. -/
def utf8Bytes (s : String) : List Nat :=
  s.data.flatMap (fun c => utf8EncodeCodepoint c.toNat)

/-- Upper-case hexadecimal digit for a value below 16 (as used by
`encodeURIComponent` percent escapes). -/
def hexDigitChar (n : Nat) : Char :=
  if n < 10 then Char.ofNat (48 + n) else Char.ofNat (55 + n)

/-- Is this byte value in `encodeURIComponent`'s unreserved set
`A-Z a-z 0-9 - _ . ! ~ * ' ( )`? -/
def isUnreservedByte (b : Nat) : Bool :=
  (65 ≤ b ∧ b ≤ 90) ∨ (97 ≤ b ∧ b ≤ 122) ∨ (48 ≤ b ∧ b ≤ 57) ∨
    b = 45 ∨ b = 95 ∨ b = 46 ∨ b = 33 ∨ b = 126 ∨ b = 42 ∨ b = 39 ∨ b = 40 ∨ b = 41

/-- JavaScript's `encodeURIComponent`: percent-encode every UTF-8 byte outside
the unreserved set, with upper-case hex digits. -/
def encodeURIComponent (s : String) : String :=
  String.mk ((utf8Bytes s).flatMap (fun b =>
    if isUnreservedByte b then [Char.ofNat b]
    else [Char.ofNat 37, hexDigitChar (b / 16), hexDigitChar (b % 16)]))

/-- First-occurrence-preserving de-duplication, the model of
`[...new Set(candidates)]`. -/
def dedupKeepFirst (l : List String) : List String :=
  l.foldl (fun acc s => if s ∈ acc then acc else acc ++ [s]) []

/-- `buildRemotePathCandidates` from `src/resolver-utils.ts` (also inlined in
`src/extension.ts`): normalize to a leading `/`, split into non-empty segments,
and emit one candidate per trim point (`start = 0 .. segments.length - 1`),
de-duplicated preserving order; `["/"]` when there are no segments. -/
def buildRemotePathCandidates (remotePath : String) : List String :=
  let normalized := if startsWithStr remotePath "/" then remotePath else "/" ++ remotePath
  let segments := (splitOnChar '/' normalized).filter (fun s => s.length > 0)
  if segments.isEmpty then ["/"]
  else
    dedupKeepFirst ((List.range segments.length).map
      (fun start => "/" ++ "/".intercalate (segments.drop start)))

/-- The non-empty segment list of a remote path, as computed by
`buildRemotePathCandidates` before candidate generation. -/
def remotePathSegments (remotePath : String) : List String :=
  let normalized := if startsWithStr remotePath "/" then remotePath else "/" ++ remotePath
  (splitOnChar '/' normalized).filter (fun s => s.length > 0)

/-- Spec-side definition (following the specification's words, for comparison
with `buildRemotePathCandidates`): the suffixes of the segment list, from the
longest suffix down to the final segment alone, each rendered with a leading
`/`, duplicates removed preserving first occurrence. -/
def suffixCandidatesSpec (segments : List String) : List String :=
  dedupKeepFirst ((segments.tails.dropLast).map
    (fun suffix => "/" ++ "/".intercalate suffix))

theorem tails_eq_range_map_drop {α : Type} (l : List α) :
    l.tails = (List.range (l.length + 1)).map (fun i => l.drop i) := by
  induction l with
  | nil => rfl
  | cons a as ih =>
      simp only [List.tails, List.length_cons, List.range_succ_eq_map, List.map_cons,
        List.map_map, List.drop_zero, ih]
      rfl

theorem buildRemotePathCandidates_unfold (remotePath : String) :
    buildRemotePathCandidates remotePath =
      (if (remotePathSegments remotePath).isEmpty then ["/"]
       else
         dedupKeepFirst ((List.range (remotePathSegments remotePath).length).map
           (fun start => "/" ++ "/".intercalate ((remotePathSegments remotePath).drop start)))) :=
  rfl

theorem buildRemotePathCandidates_eq_suffixes (remotePath : String)
    (h : remotePathSegments remotePath ≠ []) :
    buildRemotePathCandidates remotePath =
      suffixCandidatesSpec (remotePathSegments remotePath) := by
  rw [buildRemotePathCandidates_unfold, suffixCandidatesSpec]
  set segments := remotePathSegments remotePath with hseg
  have hne : segments.isEmpty = false := by
    cases hs : segments with
    | nil => exact absurd hs h
    | cons a as => simp
  rw [hne]
  simp only [Bool.false_eq_true, if_false]
  congr 1
  rw [tails_eq_range_map_drop, List.range_succ, List.map_append]
  simp only [List.map_cons, List.map_nil]
  rw [List.dropLast_concat, List.map_map]
  rfl

/-! ## POSIX model of the `node:path` functions used by the source -/

/-- Segment-level POSIX path resolution: drop empty and `.` segments, let `..`
pop the previous segment (saturating at the root), as `path.resolve` does for
absolute inputs. -/
def resolveSegs (p : String) : List String :=
  (splitOnChar '/' p).foldl
    (fun acc seg =>
      if seg = "" ∨ seg = "." then acc
      else if seg = ".." then acc.dropLast
      else acc ++ [seg]) []

/-- Render an absolute path from its segments. -/
def renderAbs (segs : List String) : String :=
  "/" ++ "/".intercalate segs

/-- `path.resolve` for absolute POSIX inputs. -/
def pathResolve (p : String) : String :=
  renderAbs (resolveSegs p)

/-- Length of the longest common prefix of two segment lists. -/
def commonPrefixLen : List String → List String → Nat
  | a :: as, b :: bs => if a = b then 1 + commonPrefixLen as bs else 0
  | _, _ => 0

/-- `path.relative` for absolute POSIX inputs: resolve both, strip the common
segment prefix, go up with `..` for each remaining `from` segment. -/
def pathRelative (fromP toP : String) : String :=
  let f := resolveSegs fromP
  let t := resolveSegs toP
  let k := commonPrefixLen f t
  "/".intercalate (List.replicate (f.length - k) ".." ++ t.drop k)

/-- `path.isAbsolute` (POSIX). -/
def isAbsolutePath (p : String) : Bool :=
  startsWithStr p "/"

/-- `normalizeLocalRoot` from `src/extension.ts`: `path.resolve(input)` with
trailing slashes/backslashes stripped. -/
def normalizeLocalRoot (input : String) : String :=
  String.mk (((pathResolve input).data.reverse.dropWhile
    (fun c => c = '/' ∨ c = '\\')).reverse)

/-- `isPathWithin` from `src/extension.ts`: `candidate` is inside `root` when
the relative path from the normalized root to the normalized candidate is empty,
or neither starts with `..` nor is absolute. -/
def isPathWithin (candidate root : String) : Bool :=
  let normalizedCandidate := normalizeLocalRoot candidate
  let normalizedRoot := normalizeLocalRoot root
  let relative := pathRelative normalizedRoot normalizedCandidate
  if relative = "" then true
  else ¬ startsWithStr relative ".." ∧ ¬ isAbsolutePath relative

/-! ## Data model -/

/-- The slice of Graph `driveItemVersion` objects used by the resolver. -/
structure GraphVersion where
  id : String
  lastModifiedDateTime : String
  deriving Repr, DecidableEq

/-- `parentReference` of a Graph drive item. -/
structure ParentReference where
  driveId : Option String := none
  deriving Repr, DecidableEq

/-- The slice of Graph drive items selected by the resolver
(`$select=id,name,parentReference`). -/
structure GraphDriveItem where
  id : String
  name : String
  parentReference : Option ParentReference := none
  deriving Repr, DecidableEq

/-- The slice of Graph drives selected by the resolver. -/
structure GraphDrive where
  id : String
  name : Option String := none
  driveType : Option String := none
  webUrl : Option String := none
  deriving Repr, DecidableEq

/-- A local-root → remote mapping candidate (`Mapping` in `src/extension.ts`). -/
structure Mapping where
  localRoot : String
  driveId : Option String := none
  remoteRoot : Option String := none
  urlNamespace : Option String := none
  fullRemotePath : Option String := none
  deriving Repr, DecidableEq

/-- Per-file resolved state (`VersionContext` in `src/extension.ts`).
`selectedIndex` is an `Int` because the UI may request negative indices. -/
structure VersionContext where
  driveId : String
  itemId : String
  versions : List GraphVersion
  selectedIndex : Int
  deriving Repr, DecidableEq

/-! ## Stable descending sort (model of `Array.prototype.sort` with a
`(a, b) => key(b) - key(a)` comparator, which is stable per ES2019) -/

/-- Insert `v` into a descending-by-`key` list, before the first element whose
key is not greater than `v`'s (so earlier-listed elements stay ahead of equal
later ones). -/
def insertDescBy {α : Type} (key : α → Int) (v : α) : List α → List α
  | [] => [v]
  | w :: ws => if key v < key w then w :: insertDescBy key v ws else v :: w :: ws

/-- Stable sort, descending by `key`. -/
def stableSortDescBy {α : Type} (key : α → Int) (l : List α) : List α :=
  l.foldr (insertDescBy key) []

theorem insertDescBy_perm {α : Type} (key : α → Int) (v : α) (l : List α) :
    (insertDescBy key v l).Perm (v :: l) := by
  induction l with
  | nil => exact List.Perm.refl _
  | cons w ws ih =>
      by_cases h : key v < key w
      · simp only [insertDescBy, if_pos h]
        exact ((ih.cons w).trans (List.Perm.swap v w ws))
      · simp only [insertDescBy, if_neg h]
        exact List.Perm.refl _

theorem stableSortDescBy_perm {α : Type} (key : α → Int) (l : List α) :
    (stableSortDescBy key l).Perm l := by
  induction l with
  | nil => exact List.Perm.refl _
  | cons x xs ih =>
      exact (insertDescBy_perm key x (stableSortDescBy key xs)).trans (ih.cons x)

theorem insertDescBy_pairwise {α : Type} (key : α → Int) (v : α) (l : List α)
    (h : l.Pairwise (fun a b => key b ≤ key a)) :
    (insertDescBy key v l).Pairwise (fun a b => key b ≤ key a) := by
  induction l with
  | nil => simp [insertDescBy]
  | cons w ws ih =>
      rcases List.pairwise_cons.mp h with ⟨hw, hws⟩
      by_cases hlt : key v < key w
      · simp only [insertDescBy, if_pos hlt]
        refine List.pairwise_cons.mpr ⟨?_, ih hws⟩
        intro b hb
        have hb' : b ∈ v :: ws := (insertDescBy_perm key v ws).mem_iff.mp hb
        rcases List.mem_cons.mp hb' with rfl | hbws
        · exact le_of_lt hlt
        · exact hw b hbws
      · simp only [insertDescBy, if_neg hlt]
        refine List.pairwise_cons.mpr ⟨?_, h⟩
        intro b hb
        rcases List.mem_cons.mp hb with rfl | hbws
        · exact not_lt.mp hlt
        · exact le_trans (hw b hbws) (not_lt.mp hlt)

theorem stableSortDescBy_pairwise {α : Type} (key : α → Int) (l : List α) :
    (stableSortDescBy key l).Pairwise (fun a b => key b ≤ key a) := by
  induction l with
  | nil => simp [stableSortDescBy]
  | cons x xs ih => exact insertDescBy_pairwise key x _ ih

theorem filter_insertDescBy {α : Type} (key : α → Int) (v : α) (k : Int) (l : List α) :
    (insertDescBy key v l).filter (fun x => key x = k) =
      (if key v = k then v :: l.filter (fun x => key x = k)
       else l.filter (fun x => key x = k)) := by
  induction l with
  | nil => by_cases h : key v = k <;> simp [insertDescBy, List.filter, h]
  | cons w ws ih =>
      by_cases hlt : key v < key w
      · simp only [insertDescBy, if_pos hlt]
        by_cases hw : key w = k
        · have hv : ¬ key v = k := by
            intro hv; rw [hv, ← hw] at hlt; exact lt_irrefl _ hlt
          simp [List.filter_cons, hw, hv, ih]
        · by_cases hv : key v = k <;> simp [List.filter_cons, hw, hv, ih]
      · simp only [insertDescBy, if_neg hlt]
        by_cases hv : key v = k <;> simp [List.filter_cons, hv]

/-- Stability: among elements with equal sort key, the stable sort preserves
the input order. -/
theorem stableSortDescBy_stable {α : Type} (key : α → Int) (k : Int) (l : List α) :
    (stableSortDescBy key l).filter (fun x => key x = k) =
      l.filter (fun x => key x = k) := by
  induction l with
  | nil => rfl
  | cons x xs ih =>
      show (insertDescBy key x (stableSortDescBy key xs)).filter _ = _
      rw [filter_insertDescBy]
      by_cases hx : key x = k <;> simp [List.filter_cons, hx, ih]

/-- The head of a non-empty stable descending sort has a maximal key. -/
theorem stableSortDescBy_head_max {α : Type} (key : α → Int) (l : List α)
    (best : α) (rest : List α) (h : stableSortDescBy key l = best :: rest) :
    ∀ x ∈ l, key x ≤ key best := by
  intro x hx
  have hmem : x ∈ best :: rest := by
    rw [← h]
    exact ((stableSortDescBy_perm key l).symm.mem_iff).mp hx
  rcases List.mem_cons.mp hmem with rfl | hrest
  · exact le_refl _
  · have hp := stableSortDescBy_pairwise key l
    rw [h] at hp
    exact (List.pairwise_cons.mp hp).1 x hrest

/-! ## Mapping selection (`resolveBestMapping`, `inferMappingFromPath`) -/

/-- JavaScript `\w` (ASCII word character). -/
def isWordChar (c : Char) : Bool :=
  (65 ≤ c.toNat ∧ c.toNat ≤ 90) ∨ (97 ≤ c.toNat ∧ c.toNat ≤ 122) ∨
    (48 ≤ c.toNat ∧ c.toNat ≤ 57) ∨ c = '_'

/-- The test `/^onedrive(\b|[ -])/i.test(segment)`: a case-insensitive
`onedrive` at the start, followed by the end of the segment, a non-word
character (the `\b` boundary), a space, or a hyphen. -/
def matchesOneDriveSegment (segment : String) : Bool :=
  let lower := toLowerStr segment
  startsWithStr lower "onedrive" &&
    (match lower.data.drop 8 with
     | [] => true
     | c :: _ => !isWordChar c || c == ' ' || c == '-')

/-- `inferMappingFromPath` from `src/extension.ts` (POSIX): split off the root,
find the first segment matching the OneDrive pattern and take every segment up
to and including it as the inferred local root. -/
def inferMappingFromPath (localPath : String) : Option Mapping :=
  let root := if startsWithStr localPath "/" then "/" else ""
  let segments := (splitOnChar '/' (localPath.drop root.length)).filter (fun s => s.length > 0)
  match segments.findIdx? matchesOneDriveSegment with
  | none => none
  | some oneDriveIndex =>
      some { localRoot := root ++ "/".intercalate (segments.take (oneDriveIndex + 1)) }

/-- The selection core of `resolveBestMapping` (`src/extension.ts` lines
174–186): pair every candidate with its canonicalized root, keep those whose
root contains the path, sort descending by root length (stable), and return the
first with its canonicalized root substituted in. -/
def selectBestMapping (candidates : List Mapping) (localPath : String) : Option Mapping :=
  let sortedMatches := stableSortDescBy (fun p => (p.2.length : Int))
    ((candidates.map (fun m => (m, normalizeLocalRoot m.localRoot))).filter
      (fun p => isPathWithin localPath p.2))
  match sortedMatches with
  | [] => none
  | best :: _ => some { best.1 with localRoot := best.2 }

/-- `resolveBestMapping` from `src/extension.ts`: the configured, environment
and registry mappings (here a parameter `baseCandidates`, since they come from
ambient configuration), with the path-inferred mapping appended when present,
fed to the selection core. -/
def resolveBestMapping (baseCandidates : List Mapping) (localPath : String) : Option Mapping :=
  selectBestMapping
    (match inferMappingFromPath localPath with
     | some inferred => baseCandidates ++ [inferred]
     | none => baseCandidates) localPath

/-- Reduction of `selectBestMapping` to its sorted match list. -/
theorem selectBestMapping_eq (candidates : List Mapping) (localPath : String) :
    selectBestMapping candidates localPath =
      (match stableSortDescBy (fun p => ((p.2.length : Int)))
          ((candidates.map (fun m => (m, normalizeLocalRoot m.localRoot))).filter
            (fun p => isPathWithin localPath p.2)) with
       | [] => none
       | best :: _ => some { best.1 with localRoot := best.2 }) :=
  rfl

theorem selectBestMapping_none {candidates : List Mapping} {localPath : String}
    (h : selectBestMapping candidates localPath = none) :
    ∀ m ∈ candidates, ¬ isPathWithin localPath (normalizeLocalRoot m.localRoot) := by
  intro m hm hcontains
  rw [selectBestMapping_eq] at h
  have hmem : (m, normalizeLocalRoot m.localRoot) ∈
      ((candidates.map (fun m => (m, normalizeLocalRoot m.localRoot))).filter
        (fun p => isPathWithin localPath p.2)) := by
    rw [List.mem_filter]
    exact ⟨List.mem_map_of_mem _ hm, hcontains⟩
  cases hs : stableSortDescBy (fun p => ((p.2.length : Int)))
      ((candidates.map (fun m => (m, normalizeLocalRoot m.localRoot))).filter
        (fun p => isPathWithin localPath p.2)) with
  | nil =>
      have hperm := stableSortDescBy_perm (fun p => ((p.2.length : Int)))
        ((candidates.map (fun m => (m, normalizeLocalRoot m.localRoot))).filter
          (fun p => isPathWithin localPath p.2))
      rw [hs] at hperm
      rw [hperm.symm.eq_nil] at hmem
      exact absurd hmem (List.not_mem_nil _)
  | cons b bs =>
      rw [hs] at h
      exact Option.noConfusion h

theorem selectBestMapping_some {candidates : List Mapping} {localPath : String}
    {best : Mapping} (h : selectBestMapping candidates localPath = some best) :
    (∃ m ∈ candidates, best = { m with localRoot := normalizeLocalRoot m.localRoot }) ∧
      isPathWithin localPath best.localRoot ∧
      ∀ m ∈ candidates, isPathWithin localPath (normalizeLocalRoot m.localRoot) →
        (normalizeLocalRoot m.localRoot).length ≤ best.localRoot.length := by
  rw [selectBestMapping_eq] at h
  cases hs : stableSortDescBy (fun p => ((p.2.length : Int)))
      ((candidates.map (fun m => (m, normalizeLocalRoot m.localRoot))).filter
        (fun p => isPathWithin localPath p.2)) with
  | nil =>
      rw [hs] at h
      exact Option.noConfusion h
  | cons b bs =>
      rw [hs] at h
      injection h with h
      have hbmem : b ∈
          ((candidates.map (fun m => (m, normalizeLocalRoot m.localRoot))).filter
            (fun p => isPathWithin localPath p.2)) := by
        have hperm := stableSortDescBy_perm (fun p => ((p.2.length : Int)))
          ((candidates.map (fun m => (m, normalizeLocalRoot m.localRoot))).filter
            (fun p => isPathWithin localPath p.2))
        rw [hs] at hperm
        exact hperm.mem_iff.mp (List.mem_cons_self b bs)
      have hbmem' := hbmem
      rw [List.mem_filter] at hbmem'
      rcases List.mem_map.mp hbmem'.1 with ⟨m, hmmem, hfm⟩
      have hroot : best.localRoot = b.2 := by rw [← h]
      refine ⟨⟨m, hmmem, ?_⟩, ?_, ?_⟩
      · rw [← h, ← hfm]
      · rw [hroot]
        exact hbmem'.2
      · intro m' hm' hcont
        have hmem' : (m', normalizeLocalRoot m'.localRoot) ∈
            ((candidates.map (fun m => (m, normalizeLocalRoot m.localRoot))).filter
              (fun p => isPathWithin localPath p.2)) := by
          rw [List.mem_filter]
          exact ⟨List.mem_map_of_mem _ hm', hcont⟩
        have hle := stableSortDescBy_head_max (fun p => ((p.2.length : Int))) _ b bs hs
          (m', normalizeLocalRoot m'.localRoot) hmem'
        rw [hroot]
        simp only [] at hle
        exact_mod_cast hle

/-! ## URL model and the resolver-utils URL helpers -/

/-- The parts of a WHATWG `URL` used by the source. -/
structure ParsedUrl where
  scheme : String
  authority : String
  pathname : String
  deriving Repr, DecidableEq

/-- `url.origin` (`scheme://authority`). -/
def ParsedUrl.origin (u : ParsedUrl) : String :=
  u.scheme ++ "://" ++ u.authority

/-- Model of `new URL(s)` for `scheme://authority/path` strings: the authority
runs to the first `/`, `?` or `#`; the pathname to the first `?` or `#`; an
empty pathname reads as `/`.  A string without a `scheme://authority` part
fails to parse (the constructor throws). -/
def parseUrl (s : String) : Option ParsedUrl :=
  match splitProto s with
  | scheme :: rest₀ :: restMore =>
      let remainder := "://".intercalate (rest₀ :: restMore)
      if scheme == "" then none
      else
        let authority := String.mk (remainder.data.takeWhile
          (fun c => c != '/' && c != '?' && c != '#'))
        if authority == "" then none
        else
          let pathname := String.mk ((remainder.data.drop authority.data.length).takeWhile
            (fun c => c != '?' && c != '#'))
          some { scheme := scheme, authority := authority,
                 pathname := if pathname == "" then "/" else pathname }
  | _ => none

/-- `.replace(/\/+$/, "")`. -/
def stripTrailingSlashes (s : String) : String :=
  String.mk ((s.data.reverse.dropWhile (fun c => c == '/')).reverse)

/-- `.replace(/^\/+/, "")`. -/
def stripLeadingSlashes (s : String) : String :=
  String.mk (s.data.dropWhile (fun c => c == '/'))

/-- Value of an ASCII hexadecimal digit. -/
def hexVal (c : Char) : Option Nat :=
  if 48 ≤ c.toNat ∧ c.toNat ≤ 57 then some (c.toNat - 48)
  else if 65 ≤ c.toNat ∧ c.toNat ≤ 70 then some (c.toNat - 55)
  else if 97 ≤ c.toNat ∧ c.toNat ≤ 102 then some (c.toNat - 87)
  else none

/-- Read one `%HH` escape from the front of a character list. -/
def readPctByte : List Char → Option (Nat × List Char)
  | '%' :: c1 :: c2 :: rest =>
      match hexVal c1, hexVal c2 with
      | some h1, some h2 => some (16 * h1 + h2, rest)
      | _, _ => none
  | _ => none

/-- Core of `decodeURIComponent`: decode `%HH` escape runs as UTF-8 sequences
(rejecting truncated escapes, stray continuation bytes, overlong encodings,
surrogate code points and out-of-range code points, on which the JavaScript
function throws `URIError`), pass other characters through.  `fuel` bounds the
recursion; a successful step always consumes at least one character, so fuel
equal to the list length suffices. -/
def decodeCharsFuel : Nat → List Char → Option (List Char)
  | _, [] => some []
  | 0, _ :: _ => none
  | fuel + 1, '%' :: t =>
      match readPctByte ('%' :: t) with
      | none => none
      | some (b0, r0) =>
        if b0 < 128 then (decodeCharsFuel fuel r0).map (fun cs => Char.ofNat b0 :: cs)
        else if b0 < 192 then none
        else if b0 < 224 then
          match readPctByte r0 with
          | none => none
          | some (b1, r1) =>
            if 128 ≤ b1 ∧ b1 < 192 then
              let n := (b0 - 192) * 64 + (b1 - 128)
              if 128 ≤ n then (decodeCharsFuel fuel r1).map (fun cs => Char.ofNat n :: cs)
              else none
            else none
        else if b0 < 240 then
          match readPctByte r0 with
          | none => none
          | some (b1, r1) =>
            match readPctByte r1 with
            | none => none
            | some (b2, r2) =>
              if (128 ≤ b1 ∧ b1 < 192) ∧ (128 ≤ b2 ∧ b2 < 192) then
                let n := (b0 - 224) * 4096 + (b1 - 128) * 64 + (b2 - 128)
                if 2048 ≤ n ∧ (n < 55296 ∨ 57343 < n) then
                  (decodeCharsFuel fuel r2).map (fun cs => Char.ofNat n :: cs)
                else none
              else none
        else if b0 < 248 then
          match readPctByte r0 with
          | none => none
          | some (b1, r1) =>
            match readPctByte r1 with
            | none => none
            | some (b2, r2) =>
              match readPctByte r2 with
              | none => none
              | some (b3, r3) =>
                if (128 ≤ b1 ∧ b1 < 192) ∧ (128 ≤ b2 ∧ b2 < 192) ∧ (128 ≤ b3 ∧ b3 < 192) then
                  let n := (b0 - 240) * 262144 + (b1 - 128) * 4096 + (b2 - 128) * 64 + (b3 - 128)
                  if 65536 ≤ n ∧ n < 1114112 then
                    (decodeCharsFuel fuel r3).map (fun cs => Char.ofNat n :: cs)
                  else none
                else none
        else none
  | fuel + 1, c :: rest => (decodeCharsFuel fuel rest).map (fun cs => c :: cs)

/-- JavaScript `decodeURIComponent`, `none` when it would throw `URIError`. -/
def decodeURIComponent (s : String) : Option String :=
  (decodeCharsFuel s.data.length s.data).map String.mk

/-- Does the character list not start with `/` (the `(?!\/)` lookahead)? -/
def notFollowedBySlash (cs : List Char) : Bool :=
  match cs with
  | '/' :: _ => false
  | _ => true

/-- `normalizeShareBaseUrl` from `src/resolver-utils.ts` (also inlined in
`src/extension.ts`): trim, then repair a malformed single-slash protocol
(`https:/x` → `https://x`, `http:/x` → `http://x`, case-insensitively). -/
def normalizeShareBaseUrl (input : String) : String :=
  let trimmed := trimStr input
  if trimmed == "" then trimmed
  else
    let step1 :=
      if toLowerStr (trimmed.take 7) == "https:/" && notFollowedBySlash (trimmed.data.drop 7)
      then "https://" ++ trimmed.drop 7 else trimmed
    if toLowerStr (step1.take 6) == "http:/" && notFollowedBySlash (step1.data.drop 6)
    then "http://" ++ step1.drop 6 else step1

/-- `appendPathSegmentsToUrl` from `src/resolver-utils.ts` / `src/extension.ts`:
parse the base URL (throwing on a malformed one), strip trailing slashes from
its path, append the percent-encoded segments, and render the URL. -/
def appendPathSegmentsToUrl (baseUrl : String) (segments : List String) :
    Except String String :=
  match parseUrl baseUrl with
  | none => Except.error "TypeError: Invalid URL"
  | some url =>
      let basePath := stripTrailingSlashes url.pathname
      let extraPath := "/".intercalate (segments.map encodeURIComponent)
      let newPath :=
        if extraPath.length > 0 then basePath ++ "/" ++ extraPath
        else if basePath.length > 0 then basePath else "/"
      Except.ok (url.scheme ++ "://" ++ url.authority ++ newPath)

/-- `getRelativePathByUrlPrefix` from `src/resolver-utils.ts` /
`src/extension.ts`: parse both URLs; require equal origins (case-insensitive);
strip trailing slashes from both paths; require the base path to be a
case-insensitive prefix of the target path; return the percent-decoded
remainder with leading slashes stripped.  Any parse or decode failure yields
`none` (the body is wrapped in try/catch). -/
def getRelativePathByUrlPrefix (targetUrl baseUrl : String) : Option String :=
  match parseUrl targetUrl, parseUrl baseUrl with
  | some target, some base =>
      if toLowerStr target.origin ≠ toLowerStr base.origin then none
      else
        let targetPath := stripTrailingSlashes target.pathname
        let basePath := stripTrailingSlashes base.pathname
        if ¬ startsWithStr (toLowerStr targetPath) (toLowerStr basePath) then none
        else decodeURIComponent (stripLeadingSlashes (targetPath.drop basePath.length))
  | _, _ => none

/-! ## Share-id encoding (`toGraphShareId`) -/

/-- The standard base64 alphabet, by index. -/
def b64Index (n : Nat) : Char :=
  if n < 26 then Char.ofNat (65 + n)
  else if n < 52 then Char.ofNat (97 + (n - 26))
  else if n < 62 then Char.ofNat (48 + (n - 52))
  else if n = 62 then '+'
  else '/'

/-- Base64 encoding of a byte list (values below 256), with `=` padding, three
bytes to four characters. -/
def base64Chunks : List Nat → List Char
  | b0 :: b1 :: b2 :: rest =>
      b64Index (b0 / 4) :: b64Index (b0 % 4 * 16 + b1 / 16) ::
        b64Index (b1 % 16 * 4 + b2 / 64) :: b64Index (b2 % 64) :: base64Chunks rest
  | [b0, b1] => [b64Index (b0 / 4), b64Index (b0 % 4 * 16 + b1 / 16), b64Index (b1 % 16 * 4), '=']
  | [b0] => [b64Index (b0 / 4), b64Index (b0 % 4 * 16), '=', '=']
  | [] => []

/-- `Buffer.from(s, "utf8").toString("base64")`. -/
def base64Encode (bs : List Nat) : String :=
  String.mk (base64Chunks bs)

/-- `.replace(/\+/g, "-").replace(/\//g, "_")`. -/
def base64UrlReplace (c : Char) : Char :=
  if c = '+' then '-' else if c = '/' then '_' else c

/-- `.replace(/=+$/g, "")`. -/
def stripTrailingEq (s : String) : String :=
  String.mk ((s.data.reverse.dropWhile (fun c => c == '=')).reverse)

/-- The unpadded base64url encoding of a byte list, as produced inside
`toGraphShareId`. -/
def base64UrlNoPad (bs : List Nat) : String :=
  stripTrailingEq (String.mk ((base64Encode bs).data.map base64UrlReplace))

/-- `toGraphShareId` from `src/resolver-utils.ts` / `src/extension.ts`:
base64-encode the URL's UTF-8 bytes, switch to the base64url alphabet, strip
padding, and prefix `u!`. -/
def toGraphShareId (webUrl : String) : String :=
  "u!" ++ base64UrlNoPad (utf8Bytes webUrl)

/-! ## The remote API environment and the item-resolution strategies

`fetchJson` is modelled by an environment mapping endpoint URLs to responses,
one field per response shape (`GraphDriveItem`, drive list, version list).
Errors are the thrown messages.  Every request-issuing function also returns
the list of endpoint URLs it requested, in order. -/

/-- The remote API, as a map from endpoint URL to outcome. -/
structure GraphEnv where
  fetchItem : String → Except String GraphDriveItem
  fetchDrives : String → Except String (List GraphDrive)
  fetchVersions : String → Except String (List GraphVersion)

/-- `GRAPH_BASE` from the source. -/
def GRAPH_BASE : String :=
  "https://graph.microsoft.com/v1.0"

/-- The by-path item endpoint for a given drive
(`/drives/{driveId}/root:{path}`), as built at `src/extension.ts` lines 329,
359 and 408. -/
def itemByPathEndpoint (driveId candidatePath : String) : String :=
  GRAPH_BASE ++ "/drives/" ++ encodeURIComponent driveId ++ "/root:" ++ candidatePath ++
    "?$select=id,name,parentReference"

/-- The by-path item endpoint on the caller's default drive
(`/me/drive/root:{path}`), line 342. -/
def myDriveItemEndpoint (candidatePath : String) : String :=
  GRAPH_BASE ++ "/me/drive/root:" ++ candidatePath ++ "?$select=id,name,parentReference"

/-- The drive-enumeration endpoint used by `getDriveItem`, line 353. -/
def drivesEndpoint : String :=
  GRAPH_BASE ++ "/me/drives?$select=id,name,driveType"

/-- The drive-enumeration endpoint used by `getDriveItemByDriveWebUrl`,
line 388. -/
def drivesWebUrlEndpoint : String :=
  GRAPH_BASE ++ "/me/drives?$select=id,name,driveType,webUrl"

/-- The versions endpoint, line 443. -/
def versionsEndpoint (driveId itemId : String) : String :=
  GRAPH_BASE ++ "/drives/" ++ encodeURIComponent driveId ++ "/items/" ++
    encodeURIComponent itemId ++ "/versions?$select=id,lastModifiedDateTime,size,lastModifiedBy"

/-- The share-lookup endpoint, line 430. -/
def shareItemEndpoint (shareId : String) : String :=
  GRAPH_BASE ++ "/shares/" ++ shareId ++ "/driveItem?$select=id,name,parentReference"

/-- Did this fetch outcome fail with a "not found" error? -/
def isNotFoundOutcome (r : Except String GraphDriveItem) : Bool :=
  match r with
  | Except.error e => isGraphNotFound e
  | Except.ok _ => false

/-- The candidate loop over `/drives/{driveId}/root:{path}` endpoints
(`src/extension.ts` lines 328–337 and 358–367): stop at the first success,
continue past "not found" failures, propagate anything else immediately.
`ok none` means every candidate failed with "not found". -/
def tryDrivePathCandidates (env : GraphEnv) (driveId : String) :
    List String → Except String (Option GraphDriveItem) × List String
  | [] => (Except.ok none, [])
  | candidatePath :: rest =>
      let endpoint := itemByPathEndpoint driveId candidatePath
      match env.fetchItem endpoint with
      | Except.ok item => (Except.ok (some item), [endpoint])
      | Except.error e =>
          if isGraphNotFound e then
            let next := tryDrivePathCandidates env driveId rest
            (next.1, endpoint :: next.2)
          else (Except.error e, [endpoint])

/-- The candidate loop over `/me/drive/root:{path}` endpoints (lines
341–350), with the same failure policy. -/
def tryMyDrivePathCandidates (env : GraphEnv) :
    List String → Except String (Option GraphDriveItem) × List String
  | [] => (Except.ok none, [])
  | candidatePath :: rest =>
      let endpoint := myDriveItemEndpoint candidatePath
      match env.fetchItem endpoint with
      | Except.ok item => (Except.ok (some item), [endpoint])
      | Except.error e =>
          if isGraphNotFound e then
            let next := tryMyDrivePathCandidates env rest
            (next.1, endpoint :: next.2)
          else (Except.error e, [endpoint])

/-- The nested loop over enumerated drives (lines 357–368): for each drive run
the candidate loop; continue to the next drive only when every candidate was
"not found". -/
def tryDrivesList (env : GraphEnv) (remotePathCandidates : List String) :
    List GraphDrive → Except String (Option GraphDriveItem) × List String
  | [] => (Except.ok none, [])
  | drive :: rest =>
      match tryDrivePathCandidates env drive.id remotePathCandidates with
      | (Except.ok none, tr) =>
          let next := tryDrivesList env remotePathCandidates rest
          (next.1, tr ++ next.2)
      | (Except.ok (some item), tr) => (Except.ok (some item), tr)
      | (Except.error e, tr) => (Except.error e, tr)

/-- `getDriveItem` from `src/extension.ts` (lines 323–371), strategies 1–3 of
the item resolver: an explicit drive id is tried alone (its exhaustion throws
without trying any other drive); otherwise the default drive and then every
accessible drive is tried. -/
def getDriveItem (env : GraphEnv) (mapping : Mapping) (remotePath : String) :
    Except String GraphDriveItem × List String :=
  let remotePathCandidates := buildRemotePathCandidates remotePath
  match mapping.driveId with
  | some driveId =>
      match tryDrivePathCandidates env driveId remotePathCandidates with
      | (Except.ok (some item), tr) => (Except.ok item, tr)
      | (Except.ok none, tr) =>
          (Except.error "itemNotFound: path was not found in configured drive mapping.", tr)
      | (Except.error e, tr) => (Except.error e, tr)
  | none =>
      match tryMyDrivePathCandidates env remotePathCandidates with
      | (Except.ok (some item), tr) => (Except.ok item, tr)
      | (Except.error e, tr) => (Except.error e, tr)
      | (Except.ok none, tr) =>
          match env.fetchDrives drivesEndpoint with
          | Except.error e => (Except.error e, tr ++ [drivesEndpoint])
          | Except.ok drives =>
              match tryDrivesList env remotePathCandidates drives with
              | (Except.ok (some item), tr') => (Except.ok item, tr ++ drivesEndpoint :: tr')
              | (Except.ok none, tr') =>
                  (Except.error "itemNotFound: path was not found in /me/drive or any accessible /me/drives entries (including trimmed-path fallback).",
                    tr ++ drivesEndpoint :: tr')
              | (Except.error e, tr') => (Except.error e, tr ++ drivesEndpoint :: tr')

/-- The share roots of a mapping: `fullRemotePath` then `urlNamespace`, kept
when present and non-blank, each normalized (lines 108–110 and 378–380). -/
def shareRootsOf (mapping : Mapping) : List String :=
  (([mapping.fullRemotePath, mapping.urlNamespace].filterMap id).filter
    (fun v => (trimStr v).length > 0)).map normalizeShareBaseUrl

/-- The inner loop of `getDriveItemByDriveWebUrl` over target URLs (lines
397–416): skip targets the drive's web URL does not prefix; on a hit, look the
remainder up under the drive root, continuing past "not found" and
"access denied" failures and propagating anything else. -/
def tryWebUrlTargets (env : GraphEnv) (driveId : String) (driveWebUrl : String) :
    List String → Except String (Option GraphDriveItem) × List String
  | [] => (Except.ok none, [])
  | targetUrl :: rest =>
      match getRelativePathByUrlPrefix targetUrl driveWebUrl with
      | none => tryWebUrlTargets env driveId driveWebUrl rest
      | some relative =>
          let encodedRelative := "/".intercalate
            (((splitOnChar '/' relative).filter (fun s => s.length > 0)).map encodeURIComponent)
          let candidatePath := if encodedRelative.length > 0 then "/" ++ encodedRelative else "/"
          let endpoint := itemByPathEndpoint driveId candidatePath
          match env.fetchItem endpoint with
          | Except.ok item => (Except.ok (some item), [endpoint])
          | Except.error e =>
              if ¬ isGraphNotFound e ∧ ¬ isGraphAccessDenied e then (Except.error e, [endpoint])
              else
                let next := tryWebUrlTargets env driveId driveWebUrl rest
                (next.1, endpoint :: next.2)

/-- The outer loop of `getDriveItemByDriveWebUrl` over enumerated drives
(lines 392–417), skipping drives without a web URL. -/
def tryWebUrlDrives (env : GraphEnv) (targetUrls : List String) :
    List GraphDrive → Except String (Option GraphDriveItem) × List String
  | [] => (Except.ok none, [])
  | drive :: rest =>
      let driveWebUrl := match drive.webUrl with
        | some w => normalizeShareBaseUrl w
        | none => ""
      if driveWebUrl == "" then tryWebUrlDrives env targetUrls rest
      else
        match tryWebUrlTargets env drive.id driveWebUrl targetUrls with
        | (Except.ok none, tr) =>
            let next := tryWebUrlDrives env targetUrls rest
            (next.1, tr ++ next.2)
        | (Except.ok (some item), tr) => (Except.ok (some item), tr)
        | (Except.error e, tr) => (Except.error e, tr)

/-- `getDriveItemByDriveWebUrl` from `src/extension.ts` (lines 373–420),
strategy 4 of the item resolver. -/
def getDriveItemByDriveWebUrl (env : GraphEnv) (mapping : Mapping)
    (relativeSegments : List String) : Except String GraphDriveItem × List String :=
  let shareRoots := shareRootsOf mapping
  if shareRoots.isEmpty then
    (Except.error "itemNotFound: no registry URL metadata available.", [])
  else
    match shareRoots.mapM (fun root => appendPathSegmentsToUrl root relativeSegments) with
    | Except.error e => (Except.error e, [])
    | Except.ok targetUrls =>
        match env.fetchDrives drivesWebUrlEndpoint with
        | Except.error e => (Except.error e, [drivesWebUrlEndpoint])
        | Except.ok drives =>
            match tryWebUrlDrives env targetUrls drives with
            | (Except.ok (some item), tr) => (Except.ok item, drivesWebUrlEndpoint :: tr)
            | (Except.ok none, tr) =>
                (Except.error "itemNotFound: registry URL fallback could not map file to an accessible drive webUrl.",
                  drivesWebUrlEndpoint :: tr)
            | (Except.error e, tr) => (Except.error e, drivesWebUrlEndpoint :: tr)

/-- `getDriveItemFromShareRoots` from `src/extension.ts` (lines 422–440),
strategy 5 of the item resolver: resolve via `/shares/{shareId}/driveItem`,
continuing past "not found" failures only. -/
def getDriveItemFromShareRoots (env : GraphEnv) (relativeSegments : List String) :
    List String → Except String GraphDriveItem × List String
  | [] =>
      (Except.error "itemNotFound: file could not be resolved via registry share URL metadata.", [])
  | shareRoot :: rest =>
      match appendPathSegmentsToUrl shareRoot relativeSegments with
      | Except.error e => (Except.error e, [])
      | Except.ok shareUrl =>
          let endpoint := shareItemEndpoint (toGraphShareId shareUrl)
          match env.fetchItem endpoint with
          | Except.ok item => (Except.ok item, [endpoint])
          | Except.error e =>
              if isGraphNotFound e then
                let next := getDriveItemFromShareRoots env relativeSegments rest
                (next.1, endpoint :: next.2)
              else (Except.error e, [endpoint])

/-- The item-resolution cascade inside `loadVersionsForFile`
(`src/extension.ts` lines 91–120): try `getDriveItem`; when it fails with
"not found" or "access denied" (and only then) try the drive web-URL fallback;
when that also fails with "not found"/"access denied" (and only then) try the
share-roots fallback, or rethrow the original error when no share roots
exist.  Any other error propagates immediately. -/
def resolveItem (env : GraphEnv) (mapping : Mapping) (relativeSegments : List String)
    (remotePath : String) : Except String GraphDriveItem :=
  match (getDriveItem env mapping remotePath).1 with
  | Except.ok item => Except.ok item
  | Except.error error =>
      if ¬ isGraphNotFound error ∧ ¬ isGraphAccessDenied error then Except.error error
      else
        let afterUrl : Except String (Option GraphDriveItem) :=
          match (getDriveItemByDriveWebUrl env mapping relativeSegments).1 with
          | Except.ok item => Except.ok (some item)
          | Except.error driveUrlError =>
              if ¬ isGraphNotFound driveUrlError ∧ ¬ isGraphAccessDenied driveUrlError then
                Except.error driveUrlError
              else Except.ok none
        match afterUrl with
        | Except.error e => Except.error e
        | Except.ok (some item) => Except.ok item
        | Except.ok none =>
            let shareRoots := shareRootsOf mapping
            if shareRoots.isEmpty then Except.error error
            else (getDriveItemFromShareRoots env relativeSegments shareRoots).1

/-- `toRelativeSegments` from `src/extension.ts` (lines 300–308). -/
def toRelativeSegments (mapping : Mapping) (localPath : String) :
    Except String (List String) :=
  let root := normalizeLocalRoot mapping.localRoot
  let relative := pathRelative root localPath
  if startsWithStr relative ".." ∨ isAbsolutePath relative then
    Except.error "File is outside the mapped local OneDrive root."
  else Except.ok (((splitOnChar '/' relative)).filter (fun segment => segment.length > 0))

/-- `normalizeRemoteRoot` from `src/extension.ts` (lines 941–947). -/
def normalizeRemoteRoot (input : String) : String :=
  let trimmed := String.mk ((trimStr input).data.map (fun c => if c = '\\' then '/' else c))
  if trimmed = "" ∨ trimmed = "/" then "/"
  else "/" ++ String.mk (((trimmed.data.dropWhile (fun c => c == '/')).reverse.dropWhile
    (fun c => c == '/')).reverse)

/-- `toRemotePath` from `src/extension.ts` (lines 310–321). -/
def toRemotePath (mapping : Mapping) (relativeSegments : List String) : String :=
  let remoteRoot := normalizeRemoteRoot (mapping.remoteRoot.getD "/")
  let encodedRelativeSegments := relativeSegments.map encodeURIComponent
  let rootSegments := ((splitOnChar '/' remoteRoot).filter
    (fun segment => segment.length > 0)).map encodeURIComponent
  "/" ++ "/".intercalate (rootSegments ++ encodedRelativeSegments)

/-- `getVersions` from `src/extension.ts` (lines 442–446). -/
def getVersions (env : GraphEnv) (driveId itemId : String) :
    Except String (List GraphVersion) :=
  env.fetchVersions (versionsEndpoint driveId itemId)

/-! ## The version context store -/

/-- The `contextCache` map, an insertion-ordered key/value list. -/
abbrev ContextCache : Type :=
  List (String × VersionContext)

/-- `Map.set`: replace in place, or append a new entry. -/
def setEntry (cache : ContextCache) (k : String) (v : VersionContext) : ContextCache :=
  if cache.any (fun e => e.1 = k) then
    cache.map (fun e => if e.1 = k then (k, v) else e)
  else cache ++ [(k, v)]

/-- `Map.get`. -/
def getEntry (cache : ContextCache) (k : String) : Option VersionContext :=
  (cache.find? (fun e => e.1 = k)).map (fun e => e.2)

/-- `Map.delete`. -/
def delEntry (cache : ContextCache) (k : String) : ContextCache :=
  cache.filter (fun e => e.1 ≠ k)

/-- `loadVersionsForFile` from `src/extension.ts` (lines 82–146): canonicalize
the path, pick the best mapping, build the remote path, run the resolution
cascade, fetch and sort the versions (descending by `new Date(..).getTime()`,
modelled by `parseTime`), reject an empty version list, and store the fresh
context under the canonical path.  `baseCandidates` are the configured,
environment and registry mappings. -/
def loadVersionsForFile (env : GraphEnv) (parseTime : String → Int)
    (baseCandidates : List Mapping) (cache : ContextCache) (localPath : String) :
    Except String VersionContext × ContextCache :=
  match resolveBestMapping baseCandidates (pathResolve localPath) with
  | none => (Except.error "File is not inside a detected OneDrive root.", cache)
  | some mapping =>
      match toRelativeSegments mapping (pathResolve localPath) with
      | Except.error e => (Except.error e, cache)
      | Except.ok relativeSegments =>
          match resolveItem env mapping relativeSegments
              (toRemotePath mapping relativeSegments) with
          | Except.error e => (Except.error e, cache)
          | Except.ok item =>
              match (item.parentReference.bind (fun pr => pr.driveId)) <|> mapping.driveId with
              | none => (Except.error "Unable to determine driveId for this file.", cache)
              | some driveId =>
                  match getVersions env driveId item.id with
                  | Except.error e => (Except.error e, cache)
                  | Except.ok versions =>
                      if (stableSortDescBy
                          (fun v => parseTime v.lastModifiedDateTime) versions).isEmpty then
                        (Except.error "No OneDrive versions were returned for this file.", cache)
                      else
                        (Except.ok
                          { driveId := driveId, itemId := item.id,
                            versions := stableSortDescBy
                              (fun v => parseTime v.lastModifiedDateTime) versions,
                            selectedIndex := 0 },
                         setEntry cache (pathResolve localPath)
                           { driveId := driveId, itemId := item.id,
                             versions := stableSortDescBy
                               (fun v => parseTime v.lastModifiedDateTime) versions,
                             selectedIndex := 0 })

/-- `getCachedContext` from `src/extension.ts` (lines 148–150). -/
def getCachedContext (cache : ContextCache) (localPath : String) : Option VersionContext :=
  getEntry cache (pathResolve localPath)

/-- `clearCachedContext` from `src/extension.ts` (lines 152–154). -/
def clearCachedContext (cache : ContextCache) (localPath : String) : ContextCache :=
  delEntry cache (pathResolve localPath)

/-- `setSelectedIndex` from `src/extension.ts` (lines 731–739): use the cached
context or load one, reject an empty version list, clamp the requested index
into `[0, versions.length - 1]` and store it.  (The mutation of the cached
object is modelled by updating the stored entry; the preview opened afterwards
does not touch the store.) -/
def setSelectedIndex (env : GraphEnv) (parseTime : String → Int)
    (baseCandidates : List Mapping) (cache : ContextCache) (localPath : String)
    (nextIndex : Int) : Except String Unit × ContextCache :=
  match getCachedContext cache localPath with
  | some state =>
      if state.versions.isEmpty then (Except.error "No versions available.", cache)
      else
        let clamped := max 0 (min ((state.versions.length : Int) - 1) nextIndex)
        (Except.ok (), setEntry cache (pathResolve localPath)
          { state with selectedIndex := clamped })
  | none =>
      match loadVersionsForFile env parseTime baseCandidates cache localPath with
      | (Except.error e, cache') => (Except.error e, cache')
      | (Except.ok state, cache') =>
          if state.versions.isEmpty then (Except.error "No versions available.", cache')
          else
            let clamped := max 0 (min ((state.versions.length : Int) - 1) nextIndex)
            (Except.ok (), setEntry cache' (pathResolve localPath)
              { state with selectedIndex := clamped })

/-! ## Support lemmas about the store and the loader -/

theorem find?_update_self (k : String) (v : VersionContext) :
    ∀ (cache : ContextCache), cache.any (fun e => e.1 = k) = true →
      (List.find? (fun e => e.1 = k)
        (cache.map (fun e => if e.1 = k then (k, v) else e))).map (fun e => e.2) = some v := by
  intro cache
  induction cache with
  | nil => intro h; simp at h
  | cons hd tl ih =>
      intro h
      by_cases hhd : hd.1 = k
      · rw [List.map_cons, if_pos hhd, List.find?_cons_of_pos _ (by simp)]
        rfl
      · rw [List.map_cons, if_neg hhd, List.find?_cons_of_neg _ (by simp [hhd])]
        simp only [List.any_cons, Bool.or_eq_true] at h
        rcases h with h | h
        · exact absurd (of_decide_eq_true h) hhd
        · exact ih h

theorem find?_append_self (k : String) (v : VersionContext) :
    ∀ (cache : ContextCache), cache.any (fun e => e.1 = k) = false →
      (List.find? (fun e => e.1 = k) (cache ++ [(k, v)])).map (fun e => e.2) = some v := by
  intro cache
  induction cache with
  | nil => simp [List.find?]
  | cons hd tl ih =>
      intro h
      simp only [List.any_cons, Bool.or_eq_false_iff] at h
      rw [List.cons_append, List.find?_cons_of_neg _ (by simp [of_decide_eq_false h.1])]
      exact ih h.2

theorem getEntry_setEntry (cache : ContextCache) (k : String) (v : VersionContext) :
    getEntry (setEntry cache k v) k = some v := by
  unfold setEntry getEntry
  by_cases hany : cache.any (fun e => e.1 = k) = true
  · rw [if_pos hany]
    exact find?_update_self k v cache hany
  · rw [if_neg hany]
    exact find?_append_self k v cache (Bool.eq_false_iff.mpr hany)

theorem mem_setEntry {cache : ContextCache} {k : String} {v : VersionContext}
    {e : String × VersionContext} (he : e ∈ setEntry cache k v) :
    e ∈ cache ∨ e = (k, v) := by
  unfold setEntry at he
  by_cases hany : cache.any (fun e => e.1 = k)
  · rw [if_pos hany] at he
    rcases List.mem_map.mp he with ⟨e', he', heq⟩
    by_cases h1 : e'.1 = k
    · rw [if_pos h1] at heq
      exact Or.inr heq.symm
    · rw [if_neg h1] at heq
      exact Or.inl (heq ▸ he')
  · rw [if_neg hany] at he
    rcases List.mem_append.mp he with h | h
    · exact Or.inl h
    · exact Or.inr (List.mem_singleton.mp h)

/-- Exhaustive outcome description of `loadVersionsForFile`: it either fails
leaving the cache untouched, or succeeds having stored (as its last step) a
fresh context whose version list is the non-empty stable descending sort of
the fetched version list and whose selected index is `0`. -/
theorem loadVersionsForFile_cases (env : GraphEnv) (parseTime : String → Int)
    (baseCandidates : List Mapping) (cache : ContextCache) (localPath : String) :
    (∃ e, loadVersionsForFile env parseTime baseCandidates cache localPath =
      (Except.error e, cache)) ∨
    (∃ ctx vs,
      loadVersionsForFile env parseTime baseCandidates cache localPath =
        (Except.ok ctx, setEntry cache (pathResolve localPath) ctx) ∧
      env.fetchVersions (versionsEndpoint ctx.driveId ctx.itemId) = Except.ok vs ∧
      ctx.versions = stableSortDescBy (fun v => parseTime v.lastModifiedDateTime) vs ∧
      ctx.versions ≠ [] ∧ ctx.selectedIndex = 0) := by
  cases hm : resolveBestMapping baseCandidates (pathResolve localPath) with
  | none =>
      exact Or.inl ⟨"File is not inside a detected OneDrive root.",
        by simp only [loadVersionsForFile, hm]⟩
  | some mapping =>
      cases hr : toRelativeSegments mapping (pathResolve localPath) with
      | error e => exact Or.inl ⟨e, by simp only [loadVersionsForFile, hm, hr]⟩
      | ok relativeSegments =>
          cases hi : resolveItem env mapping relativeSegments
              (toRemotePath mapping relativeSegments) with
          | error e => exact Or.inl ⟨e, by simp only [loadVersionsForFile, hm, hr, hi]⟩
          | ok item =>
              cases hd : (item.parentReference.bind (fun pr => pr.driveId)) <|>
                  mapping.driveId with
              | none =>
                  exact Or.inl ⟨"Unable to determine driveId for this file.",
                    by simp only [loadVersionsForFile, hm, hr, hi, hd]⟩
              | some driveId =>
                  cases hv : getVersions env driveId item.id with
                  | error e =>
                      exact Or.inl ⟨e, by simp only [loadVersionsForFile, hm, hr, hi, hd, hv]⟩
                  | ok versions =>
                      by_cases hs : stableSortDescBy
                          (fun v => parseTime v.lastModifiedDateTime) versions = []
                      · refine Or.inl ⟨"No OneDrive versions were returned for this file.", ?_⟩
                        simp only [loadVersionsForFile, hm, hr, hi, hd, hv]
                        rw [if_pos (List.isEmpty_iff.mpr hs)]
                      · refine Or.inr ⟨(⟨driveId, item.id,
                            stableSortDescBy (fun v => parseTime v.lastModifiedDateTime) versions,
                            0⟩ : VersionContext), versions, ?_, ?_, rfl, hs, rfl⟩
                        · simp only [loadVersionsForFile, hm, hr, hi, hd, hv]
                          rw [if_neg (fun hc => hs (List.isEmpty_iff.mp hc))]
                        · unfold getVersions at hv
                          exact hv

/-! ## The context-store invariant -/

/-- The `VersionContext` invariant of the specification: a non-empty version
list and a selected index inside it. -/
def CtxInv (ctx : VersionContext) : Prop :=
  ctx.versions ≠ [] ∧ 0 ≤ ctx.selectedIndex ∧ ctx.selectedIndex < (ctx.versions.length : Int)

/-- Every context held in the store satisfies the invariant. -/
def StoreInv (cache : ContextCache) : Prop :=
  ∀ e ∈ cache, CtxInv e.2

theorem StoreInv_setEntry {cache : ContextCache} {k : String} {v : VersionContext}
    (h : StoreInv cache) (hv : CtxInv v) : StoreInv (setEntry cache k v) := by
  intro e he
  rcases mem_setEntry he with hmem | rfl
  · exact h e hmem
  · exact hv

theorem StoreInv_delEntry {cache : ContextCache} {k : String} (h : StoreInv cache) :
    StoreInv (delEntry cache k) :=
  fun e he => h e (List.mem_of_mem_filter he)

theorem getEntry_some_mem {cache : ContextCache} {k : String} {v : VersionContext}
    (h : getEntry cache k = some v) : ∃ e ∈ cache, e.2 = v := by
  unfold getEntry at h
  cases hf : cache.find? (fun e => e.1 = k) with
  | none => rw [hf] at h; exact Option.noConfusion h
  | some e =>
      rw [hf] at h
      exact ⟨e, List.mem_of_find?_eq_some hf, Option.some.injEq _ _ ▸ (by simpa using h)⟩

theorem loadVersionsForFile_preserves_StoreInv (env : GraphEnv) (parseTime : String → Int)
    (baseCandidates : List Mapping) (cache : ContextCache) (localPath : String)
    (h : StoreInv cache) :
    StoreInv (loadVersionsForFile env parseTime baseCandidates cache localPath).2 := by
  rcases loadVersionsForFile_cases env parseTime baseCandidates cache localPath with
    ⟨e, heq⟩ | ⟨ctx, vs, heq, _, _, hne, hsel⟩
  · rw [heq]
    exact h
  · rw [heq]
    refine StoreInv_setEntry h ⟨hne, ?_, ?_⟩
    · rw [hsel]
    · rw [hsel]
      exact_mod_cast List.length_pos.mpr hne

theorem loadVersionsForFile_ok_CtxInv {env : GraphEnv} {parseTime : String → Int}
    {baseCandidates : List Mapping} {cache : ContextCache} {localPath : String}
    {ctx : VersionContext} {cache' : ContextCache}
    (h : loadVersionsForFile env parseTime baseCandidates cache localPath =
      (Except.ok ctx, cache')) : CtxInv ctx := by
  rcases loadVersionsForFile_cases env parseTime baseCandidates cache localPath with
    ⟨e, heq⟩ | ⟨ctx0, vs, heq, _, _, hne, hsel⟩
  · rw [heq] at h
    exact absurd (congrArg Prod.fst h) (by simp)
  · rw [heq] at h
    have : ctx0 = ctx := by
      have := congrArg Prod.fst h
      simpa using this
    subst this
    exact ⟨hne, by rw [hsel], by rw [hsel]; exact_mod_cast List.length_pos.mpr hne⟩

theorem clamped_CtxInv {versions : List GraphVersion} (hne : versions ≠ [])
    (nextIndex : Int) (driveId itemId : String) :
    CtxInv { driveId := driveId, itemId := itemId, versions := versions,
             selectedIndex := max 0 (min ((versions.length : Int) - 1) nextIndex) } := by
  have hlen : 0 < versions.length := List.length_pos.mpr hne
  refine ⟨hne, le_max_left _ _, ?_⟩
  have h1 : min ((versions.length : Int) - 1) nextIndex ≤
      (versions.length : Int) - 1 := min_le_left _ _
  have h2 : (0 : Int) < (versions.length : Int) := by exact_mod_cast hlen
  simp only []
  omega

theorem setSelectedIndex_preserves_StoreInv (env : GraphEnv) (parseTime : String → Int)
    (baseCandidates : List Mapping) (cache : ContextCache) (localPath : String)
    (nextIndex : Int) (h : StoreInv cache) :
    StoreInv (setSelectedIndex env parseTime baseCandidates cache localPath nextIndex).2 := by
  cases hget : getCachedContext cache localPath with
  | some state =>
      by_cases hemp : state.versions.isEmpty = true
      · simp only [setSelectedIndex, hget, if_pos hemp]
        exact h
      · simp only [setSelectedIndex, hget, if_neg hemp]
        have hne : state.versions ≠ [] := List.isEmpty_eq_false.mp (Bool.eq_false_iff.mpr hemp)
        exact StoreInv_setEntry h (clamped_CtxInv hne nextIndex _ _)
  | none =>
      rcases loadVersionsForFile_cases env parseTime baseCandidates cache localPath with
        ⟨e, heq⟩ | ⟨ctx, vs, heq, _, _, hne, hsel⟩
      · simp only [setSelectedIndex, hget, heq]
        exact h
      · have hctxinv : CtxInv ctx := by
          refine ⟨hne, ?_, ?_⟩
          · rw [hsel]
          · rw [hsel]
            exact_mod_cast List.length_pos.mpr hne
        by_cases hemp : ctx.versions.isEmpty = true
        · simp only [setSelectedIndex, hget, heq, if_pos hemp]
          exact StoreInv_setEntry h hctxinv
        · simp only [setSelectedIndex, hget, heq, if_neg hemp]
          exact StoreInv_setEntry (StoreInv_setEntry h hctxinv)
            (clamped_CtxInv hne nextIndex _ _)

/-! ## Concrete fixtures used by witnesses and counterexamples -/

/-- An environment in which every item request fails with a 404. -/
def envW : GraphEnv :=
  { fetchItem := fun _ => Except.error "Graph request failed (404): stub"
  , fetchDrives := fun _ => Except.ok []
  , fetchVersions := fun _ => Except.ok [] }

/-- A trivial timestamp parser. -/
def ptW : String → Int :=
  fun _ => 0

/-- A three-version cached context. -/
def ctxC7 : VersionContext :=
  { driveId := "d", itemId := "i",
    versions := [{ id := "v1", lastModifiedDateTime := "t" },
                 { id := "v2", lastModifiedDateTime := "t" },
                 { id := "v3", lastModifiedDateTime := "t" }],
    selectedIndex := 1 }

/-- A drive item carrying its parent drive id. -/
def itemOk : GraphDriveItem :=
  { id := "item1", name := "f.txt", parentReference := some { driveId := some "dX" } }

/-- An environment where the default-drive lookup of `/docs/f.txt` succeeds and
two versions exist. -/
def envOk : GraphEnv :=
  { fetchItem := fun url =>
      if url = myDriveItemEndpoint "/docs/f.txt" then Except.ok itemOk
      else Except.error "Graph request failed (404): nf"
  , fetchDrives := fun _ => Except.ok []
  , fetchVersions := fun _ => Except.ok
      [{ id := "v1", lastModifiedDateTime := "t1" },
       { id := "v2", lastModifiedDateTime := "t2" }] }

/-- Timestamp parser for `envOk`: `t2` is newer than `t1`. -/
def ptOk : String → Int :=
  fun s => if s = "t2" then 5 else 3

/-- The context `envOk` produces for `/home/u/OneDrive/docs/f.txt`. -/
def ctxOk : VersionContext :=
  { driveId := "dX", itemId := "item1",
    versions := [{ id := "v2", lastModifiedDateTime := "t2" },
                 { id := "v1", lastModifiedDateTime := "t1" }],
    selectedIndex := 0 }

/-! ## Claim theorems -/

/-- **C10.** `loadVersionsForFile` is atomic with respect to the context
store: on any error the cache is returned exactly as it was, and on success
the store is written only as the last step, with the fresh context stored
under the canonicalized path. -/
theorem claim_C10_load_atomic (env : GraphEnv) (parseTime : String → Int)
    (baseCandidates : List Mapping) (cache : ContextCache) (localPath : String) :
    (∀ (e : String) (cache' : ContextCache),
      loadVersionsForFile env parseTime baseCandidates cache localPath =
        (Except.error e, cache') → cache' = cache) ∧
    (∀ (ctx : VersionContext) (cache' : ContextCache),
      loadVersionsForFile env parseTime baseCandidates cache localPath =
        (Except.ok ctx, cache') →
      cache' = setEntry cache (pathResolve localPath) ctx) := by
  rcases loadVersionsForFile_cases env parseTime baseCandidates cache localPath with
    ⟨e0, heq⟩ | ⟨ctx0, vs, heq, _, _, _, _⟩
  · constructor
    · intro e cache' h
      rw [heq] at h
      exact (congrArg Prod.snd h).symm
    · intro ctx cache' h
      rw [heq] at h
      exact absurd (congrArg Prod.fst h) (by simp)
  · constructor
    · intro e cache' h
      rw [heq] at h
      exact absurd (congrArg Prod.fst h) (by simp)
    · intro ctx cache' h
      rw [heq] at h
      have h2 := congrArg Prod.snd h
      have h1 := congrArg Prod.fst h
      simp only [Except.ok.injEq] at h1
      simp only [] at h2
      rw [← h2, h1]

/-- Witness for C10: a failing load (no mapping) leaves a populated cache
untouched, and a succeeding load writes exactly the fresh context entry. -/
theorem claim_C10_load_atomic_witness :
    (loadVersionsForFile envW ptW [] [("/f", ctxC7)] "/elsewhere/g").2 = [("/f", ctxC7)] ∧
    (loadVersionsForFile envOk ptOk [] [] "/home/u/OneDrive/docs/f.txt").2 =
      setEntry [] (pathResolve "/home/u/OneDrive/docs/f.txt") ctxOk := by
  constructor
  · exact (claim_C10_load_atomic envW ptW [] [("/f", ctxC7)] "/elsewhere/g").1
      "File is not inside a detected OneDrive root." _ rfl
  · exact (claim_C10_load_atomic envOk ptOk [] [] "/home/u/OneDrive/docs/f.txt").2 ctxOk _ rfl

/-- **C7.** For a cached context with a non-empty version list, a
selection-index change stores the clamp of the requested index into
`[0, versions.length - 1]`, saturating rather than erroring. -/
theorem claim_C7_setIndex_clamps (env : GraphEnv) (parseTime : String → Int)
    (baseCandidates : List Mapping) (cache : ContextCache) (localPath : String)
    (k : Int) (state : VersionContext)
    (hget : getCachedContext cache localPath = some state)
    (hne : state.versions ≠ []) :
    setSelectedIndex env parseTime baseCandidates cache localPath k =
      (Except.ok (), setEntry cache (pathResolve localPath)
        { state with selectedIndex := max 0 (min ((state.versions.length : Int) - 1) k) }) ∧
    getEntry (setSelectedIndex env parseTime baseCandidates cache localPath k).2
        (pathResolve localPath) =
      some { state with selectedIndex := max 0 (min ((state.versions.length : Int) - 1) k) } ∧
    0 ≤ max 0 (min ((state.versions.length : Int) - 1) k) ∧
    max 0 (min ((state.versions.length : Int) - 1) k) < (state.versions.length : Int) := by
  have hemp : ¬ state.versions.isEmpty = true := fun hc => hne (List.isEmpty_iff.mp hc)
  have h1 : setSelectedIndex env parseTime baseCandidates cache localPath k =
      (Except.ok (), setEntry cache (pathResolve localPath)
        { state with selectedIndex := max 0 (min ((state.versions.length : Int) - 1) k) }) := by
    simp only [setSelectedIndex, hget, if_neg hemp]
  refine ⟨h1, ?_, le_max_left _ _, ?_⟩
  · rw [h1]
    exact getEntry_setEntry cache (pathResolve localPath) _
  · exact (clamped_CtxInv hne k state.driveId state.itemId).2.2

/-- Witness for C7: on a three-version context, requesting index `-1` stores
index `0` and requesting index `5` stores index `2`. -/
theorem claim_C7_setIndex_clamps_witness :
    getCachedContext [("/f", ctxC7)] "/f" = some ctxC7 ∧
    ctxC7.versions ≠ [] ∧
    getEntry (setSelectedIndex envW ptW [] [("/f", ctxC7)] "/f" (-1)).2 (pathResolve "/f") =
      some { ctxC7 with selectedIndex := 0 } ∧
    getEntry (setSelectedIndex envW ptW [] [("/f", ctxC7)] "/f" 5).2 (pathResolve "/f") =
      some { ctxC7 with selectedIndex := 2 } := by
  refine ⟨rfl, by decide, ?_, ?_⟩
  · have h := (claim_C7_setIndex_clamps envW ptW [] [("/f", ctxC7)] "/f" (-1) ctxC7
      rfl (by decide)).2.1
    have he : ({ ctxC7 with
        selectedIndex := max 0 (min ((ctxC7.versions.length : Int) - 1) (-1)) } :
          VersionContext) = { ctxC7 with selectedIndex := 0 } := by decide
    rw [he] at h
    exact h
  · have h := (claim_C7_setIndex_clamps envW ptW [] [("/f", ctxC7)] "/f" 5 ctxC7
      rfl (by decide)).2.1
    have he : ({ ctxC7 with
        selectedIndex := max 0 (min ((ctxC7.versions.length : Int) - 1) 5) } :
          VersionContext) = { ctxC7 with selectedIndex := 2 } := by decide
    rw [he] at h
    exact h

/-- **C6.** Every context held in the store satisfies the invariant (non-empty
versions, `0 ≤ selectedIndex < versions.length`) after every operation: loads,
selection-index updates, clears and reads; and a successfully loaded context
always satisfies it (one with an empty version list is never constructed). -/
theorem claim_C6_store_invariant :
    (∀ (env : GraphEnv) (parseTime : String → Int) (baseCandidates : List Mapping)
        (cache : ContextCache) (localPath : String), StoreInv cache →
      StoreInv (loadVersionsForFile env parseTime baseCandidates cache localPath).2) ∧
    (∀ (env : GraphEnv) (parseTime : String → Int) (baseCandidates : List Mapping)
        (cache : ContextCache) (localPath : String) (nextIndex : Int), StoreInv cache →
      StoreInv (setSelectedIndex env parseTime baseCandidates cache localPath nextIndex).2) ∧
    (∀ (cache : ContextCache) (localPath : String), StoreInv cache →
      StoreInv (clearCachedContext cache localPath)) ∧
    (∀ (cache : ContextCache) (localPath : String) (ctx : VersionContext), StoreInv cache →
      getCachedContext cache localPath = some ctx → CtxInv ctx) ∧
    (∀ (env : GraphEnv) (parseTime : String → Int) (baseCandidates : List Mapping)
        (cache : ContextCache) (localPath : String) (ctx : VersionContext)
        (cache' : ContextCache),
      loadVersionsForFile env parseTime baseCandidates cache localPath =
        (Except.ok ctx, cache') → CtxInv ctx) := by
  refine ⟨?_, ?_, ?_, ?_, ?_⟩
  · intro env parseTime baseCandidates cache localPath h
    exact loadVersionsForFile_preserves_StoreInv env parseTime baseCandidates cache localPath h
  · intro env parseTime baseCandidates cache localPath nextIndex h
    exact setSelectedIndex_preserves_StoreInv env parseTime baseCandidates cache localPath
      nextIndex h
  · intro cache localPath h
    exact StoreInv_delEntry h
  · intro cache localPath ctx h hget
    rcases getEntry_some_mem hget with ⟨e, he, he2⟩
    exact he2 ▸ h e he
  · intro env parseTime baseCandidates cache localPath ctx cache' h
    exact loadVersionsForFile_ok_CtxInv h

/-- Witness for C6: the invariant holds for the store produced by a concrete
successful load into an empty store, and after a clamped index update. -/
theorem claim_C6_store_invariant_witness :
    StoreInv (loadVersionsForFile envOk ptOk [] [] "/home/u/OneDrive/docs/f.txt").2 ∧
    StoreInv (setSelectedIndex envW ptW [] [("/f", ctxC7)] "/f" 5).2 := by
  constructor
  · exact claim_C6_store_invariant.1 envOk ptOk [] [] "/home/u/OneDrive/docs/f.txt"
      (fun e he => absurd he (List.not_mem_nil e))
  · refine claim_C6_store_invariant.2.1 envW ptW [] [("/f", ctxC7)] "/f" 5 ?_
    intro e he
    rcases List.mem_singleton.mp he with rfl
    exact ⟨by decide, by decide, by decide⟩

/-- **C2.** For every remote path with a non-empty segment list, the candidate
list produced by the trimming fallback is exactly the suffixes of the segment
list, from the longest (the full path) down to the final segment alone, each
rendered with a leading `/`, with duplicates removed preserving
first-occurrence order. -/
theorem claim_C2_remote_path_candidates (remotePath : String)
    (h : remotePathSegments remotePath ≠ []) :
    buildRemotePathCandidates remotePath =
      suffixCandidatesSpec (remotePathSegments remotePath) :=
  buildRemotePathCandidates_eq_suffixes remotePath h

/-- Witness for C2: `/a/b/c.txt` yields `["/a/b/c.txt", "/b/c.txt", "/c.txt"]`. -/
theorem claim_C2_remote_path_candidates_witness :
    remotePathSegments "/a/b/c.txt" ≠ [] ∧
    buildRemotePathCandidates "/a/b/c.txt" =
      suffixCandidatesSpec (remotePathSegments "/a/b/c.txt") ∧
    buildRemotePathCandidates "/a/b/c.txt" = ["/a/b/c.txt", "/b/c.txt", "/c.txt"] :=
  ⟨by decide, claim_C2_remote_path_candidates "/a/b/c.txt" (by decide), by decide⟩

/-- **C3.** The mapping selector returns a mapping whose canonicalized local
root contains the path and whose canonicalized root length is maximal among
all containing candidates; with no containing candidate it returns none. -/
theorem claim_C3_mapping_selector (candidates : List Mapping) (localPath : String) :
    (selectBestMapping candidates localPath = none →
      ∀ m ∈ candidates, ¬ isPathWithin localPath (normalizeLocalRoot m.localRoot)) ∧
    (∀ best : Mapping, selectBestMapping candidates localPath = some best →
      (∃ m ∈ candidates, best = { m with localRoot := normalizeLocalRoot m.localRoot }) ∧
        isPathWithin localPath best.localRoot ∧
        ∀ m ∈ candidates, isPathWithin localPath (normalizeLocalRoot m.localRoot) →
          (normalizeLocalRoot m.localRoot).length ≤ best.localRoot.length) :=
  ⟨fun h => selectBestMapping_none h, fun _ h => selectBestMapping_some h⟩

/-- Witness for C3: among roots `/Users/x/OneDrive` and
`/Users/x/OneDrive/Projects`, a path under `Projects` selects the latter,
which contains the path and has the greater canonicalized root length. -/
theorem claim_C3_mapping_selector_witness :
    selectBestMapping
        [{ localRoot := "/Users/x/OneDrive" }, { localRoot := "/Users/x/OneDrive/Projects" }]
        "/Users/x/OneDrive/Projects/f.txt" =
      some { localRoot := "/Users/x/OneDrive/Projects" } ∧
    isPathWithin "/Users/x/OneDrive/Projects/f.txt" "/Users/x/OneDrive/Projects" ∧
    (normalizeLocalRoot "/Users/x/OneDrive").length ≤ "/Users/x/OneDrive/Projects".length := by
  have heq : selectBestMapping
      [{ localRoot := "/Users/x/OneDrive" }, { localRoot := "/Users/x/OneDrive/Projects" }]
      "/Users/x/OneDrive/Projects/f.txt" =
        some { localRoot := "/Users/x/OneDrive/Projects" } := by decide
  have h := (claim_C3_mapping_selector
      [{ localRoot := "/Users/x/OneDrive" }, { localRoot := "/Users/x/OneDrive/Projects" }]
      "/Users/x/OneDrive/Projects/f.txt").2
    { localRoot := "/Users/x/OneDrive/Projects" } heq
  refine ⟨heq, h.2.1, ?_⟩
  exact h.2.2 { localRoot := "/Users/x/OneDrive" } (List.mem_cons_self _ _) (by decide)

/-- **C9.** `getRelativePathByUrlPrefix("https://host/a/b/c", "https://host/a/")`
is `"b/c"`; and whenever the two parsed URLs' origins differ case-insensitively,
or the base path (trailing slashes stripped) is not a case-insensitive prefix of
the target path, the function returns no match. -/
theorem claim_C9_url_relative_path :
    getRelativePathByUrlPrefix "https://host/a/b/c" "https://host/a/" = some "b/c" ∧
    (∀ (targetUrl baseUrl : String) (target base : ParsedUrl),
      parseUrl targetUrl = some target → parseUrl baseUrl = some base →
      (toLowerStr target.origin ≠ toLowerStr base.origin ∨
        startsWithStr (toLowerStr (stripTrailingSlashes target.pathname))
          (toLowerStr (stripTrailingSlashes base.pathname)) = false) →
      getRelativePathByUrlPrefix targetUrl baseUrl = none) := by
  constructor
  · decide
  · intro targetUrl baseUrl target base hpt hpb hcond
    simp only [getRelativePathByUrlPrefix, hpt, hpb]
    by_cases horig : toLowerStr target.origin ≠ toLowerStr base.origin
    · rw [if_pos horig]
    · rw [if_neg horig]
      rcases hcond with hcond | hcond
      · exact absurd hcond horig
      · rw [if_pos (by rw [hcond]; exact Bool.false_ne_true)]

/-- Witness for C9: mismatched origins produce no match. -/
theorem claim_C9_url_relative_path_witness :
    getRelativePathByUrlPrefix "https://a.com/x/y" "https://b.com/x/" = none := by
  refine claim_C9_url_relative_path.2 "https://a.com/x/y" "https://b.com/x/"
    { scheme := "https", authority := "a.com", pathname := "/x/y" }
    { scheme := "https", authority := "b.com", pathname := "/x/" }
    (by decide) (by decide) (Or.inl (by decide))

/-! ## Endpoint discrimination and the explicit-drive strategy (C4) -/

theorem string_ne_of_data_get (i : Nat) {r q : String}
    (h : r.data[i]? ≠ q.data[i]?) : r ≠ q :=
  fun he => h (by rw [he])

/-- The explicit-drive item endpoint decomposed at its constant prefix. -/
theorem itemByPathEndpoint_data (d c : String) :
    (itemByPathEndpoint d c).data =
      "https://graph.microsoft.com/v1.0/drives/".data ++
        ((encodeURIComponent d).data ++ ("/root:".data ++ (c.data ++
          "?$select=id,name,parentReference".data))) := by
  simp only [itemByPathEndpoint, GRAPH_BASE, String.data_append]
  rw [show "https://graph.microsoft.com/v1.0".data ++ "/drives/".data =
    "https://graph.microsoft.com/v1.0/drives/".data from rfl]
  simp [List.append_assoc]

/-- The default-drive item endpoint decomposed at its constant prefix. -/
theorem myDriveItemEndpoint_data (c : String) :
    (myDriveItemEndpoint c).data =
      "https://graph.microsoft.com/v1.0/me/drive/root:".data ++
        (c.data ++ "?$select=id,name,parentReference".data) := by
  simp only [myDriveItemEndpoint, GRAPH_BASE, String.data_append]
  rw [show "https://graph.microsoft.com/v1.0".data ++ "/me/drive/root:".data =
    "https://graph.microsoft.com/v1.0/me/drive/root:".data from rfl]
  simp [List.append_assoc]

/-- Character 33 of an explicit-drive item endpoint is the `d` of `/drives/`. -/
theorem itemByPathEndpoint_get33 (d c : String) :
    (itemByPathEndpoint d c).data[33]? = some 'd' := by
  rw [itemByPathEndpoint_data, List.getElem?_append_left (by decide)]
  decide

/-- Character 33 of the default-drive item endpoint is the `m` of `/me/`. -/
theorem myDriveItemEndpoint_get33 (c : String) :
    (myDriveItemEndpoint c).data[33]? = some 'm' := by
  rw [myDriveItemEndpoint_data, List.getElem?_append_left (by decide)]
  decide

theorem itemByPathEndpoint_ne_myDrive (d c c' : String) :
    itemByPathEndpoint d c ≠ myDriveItemEndpoint c' :=
  string_ne_of_data_get 33
    (by rw [itemByPathEndpoint_get33, myDriveItemEndpoint_get33]; decide)

theorem itemByPathEndpoint_ne_drives (d c : String) :
    itemByPathEndpoint d c ≠ drivesEndpoint :=
  string_ne_of_data_get 33 (by rw [itemByPathEndpoint_get33]; decide)

theorem itemByPathEndpoint_ne_drivesWebUrl (d c : String) :
    itemByPathEndpoint d c ≠ drivesWebUrlEndpoint :=
  string_ne_of_data_get 33 (by rw [itemByPathEndpoint_get33]; decide)

/-- When every candidate fails with "not found", the explicit-drive candidate
loop exhausts, requesting exactly the explicit-drive endpoints in order. -/
theorem tryDrivePathCandidates_all_notFound (env : GraphEnv) (d : String) :
    ∀ (cands : List String),
      (∀ c ∈ cands, isNotFoundOutcome (env.fetchItem (itemByPathEndpoint d c)) = true) →
      tryDrivePathCandidates env d cands =
        (Except.ok none, cands.map (itemByPathEndpoint d)) := by
  intro cands
  induction cands with
  | nil => intro h; rfl
  | cons c rest ih =>
      intro h
      have hc := h c (List.mem_cons_self c rest)
      unfold isNotFoundOutcome at hc
      cases hfetch : env.fetchItem (itemByPathEndpoint d c) with
      | ok item => rw [hfetch] at hc; exact Bool.noConfusion hc
      | error e =>
          rw [hfetch] at hc
          simp only [] at hc
          have hrest := ih (fun c' hc' => h c' (List.mem_cons_of_mem c hc'))
          simp only [tryDrivePathCandidates, hfetch, hc, if_true, hrest, List.map_cons]

/-- **C4.** With an explicit drive id in the mapping and every remote-path
candidate failing against it with "not found", the direct-drive strategy fails
entirely: `getDriveItem` throws the configured-drive "itemNotFound" error
having requested exactly the explicit-drive candidate endpoints — no
default-drive lookup and no drive enumeration is attempted. -/
theorem claim_C4_explicit_drive_trusted (env : GraphEnv) (mapping : Mapping)
    (driveId : String) (remotePath : String)
    (hdrive : mapping.driveId = some driveId)
    (hall : ∀ c ∈ buildRemotePathCandidates remotePath,
      isNotFoundOutcome (env.fetchItem (itemByPathEndpoint driveId c)) = true) :
    getDriveItem env mapping remotePath =
      (Except.error "itemNotFound: path was not found in configured drive mapping.",
        (buildRemotePathCandidates remotePath).map (itemByPathEndpoint driveId)) ∧
    (∀ u ∈ (getDriveItem env mapping remotePath).2,
      ∃ c ∈ buildRemotePathCandidates remotePath, u = itemByPathEndpoint driveId c) ∧
    drivesEndpoint ∉ (getDriveItem env mapping remotePath).2 ∧
    drivesWebUrlEndpoint ∉ (getDriveItem env mapping remotePath).2 ∧
    (∀ c' : String, myDriveItemEndpoint c' ∉ (getDriveItem env mapping remotePath).2) := by
  have hloop := tryDrivePathCandidates_all_notFound env driveId
    (buildRemotePathCandidates remotePath) hall
  have hmain : getDriveItem env mapping remotePath =
      (Except.error "itemNotFound: path was not found in configured drive mapping.",
        (buildRemotePathCandidates remotePath).map (itemByPathEndpoint driveId)) := by
    simp only [getDriveItem, hdrive, hloop]
  refine ⟨hmain, ?_, ?_, ?_, ?_⟩
  · intro u hu
    rw [hmain] at hu
    rcases List.mem_map.mp hu with ⟨c, hc, heq⟩
    exact ⟨c, hc, heq.symm⟩
  · intro hmem
    rw [hmain] at hmem
    rcases List.mem_map.mp hmem with ⟨c, _, heq⟩
    exact itemByPathEndpoint_ne_drives driveId c heq
  · intro hmem
    rw [hmain] at hmem
    rcases List.mem_map.mp hmem with ⟨c, _, heq⟩
    exact itemByPathEndpoint_ne_drivesWebUrl driveId c heq
  · intro c' hmem
    rw [hmain] at hmem
    rcases List.mem_map.mp hmem with ⟨c, _, heq⟩
    exact itemByPathEndpoint_ne_myDrive driveId c c' heq

/-- A mapping with an explicit drive id, for the C4 witness. -/
def mappingC4 : Mapping :=
  { localRoot := "/r", driveId := some "dZ" }

/-- Witness for C4: with every candidate 404ing against drive `dZ`, the lookup
fails with the configured-drive error, the trace is exactly the two
explicit-drive endpoints, and the drive enumeration was never requested. -/
theorem claim_C4_explicit_drive_trusted_witness :
    getDriveItem envW mappingC4 "/a/b" =
      (Except.error "itemNotFound: path was not found in configured drive mapping.",
        (buildRemotePathCandidates "/a/b").map (itemByPathEndpoint "dZ")) ∧
    drivesEndpoint ∉ (getDriveItem envW mappingC4 "/a/b").2 := by
  constructor
  · exact (claim_C4_explicit_drive_trusted envW mappingC4 "dZ" "/a/b" rfl (by decide)).1
  · exact (claim_C4_explicit_drive_trusted envW mappingC4 "dZ" "/a/b" rfl (by decide)).2.2.1

/-! ## Error-cascade policy during item resolution (C1) -/

/-- The item a second candidate would resolve to, for the C1 counterexample. -/
def itemC1 : GraphDriveItem :=
  { id := "it1", name := "b" }

/-- Environment for the C1 counterexample: against drive `d`, the first
candidate `/a/b` fails with 403 (access denied) while the second candidate
`/b` would succeed. -/
def envC1 : GraphEnv :=
  { fetchItem := fun url =>
      if url = itemByPathEndpoint "d" "/a/b" then
        Except.error "Graph request failed (403): denied"
      else if url = itemByPathEndpoint "d" "/b" then Except.ok itemC1
      else Except.error "Graph request failed (404): nf"
  , fetchDrives := fun _ => Except.ok []
  , fetchVersions := fun _ => Except.ok [] }

/-- The explicit-drive mapping for the C1 counterexample. -/
def mappingC1 : Mapping :=
  { localRoot := "/r", driveId := some "d" }

/-- Counterexample to C1 as stated: within strategy 1 a candidate failure
classified as access denied is NOT caught — although the next candidate would
succeed, `getDriveItem` aborts immediately with the 403 error, having
requested only the first candidate endpoint. -/
theorem claim_C1_counterexample :
    isGraphAccessDenied "Graph request failed (403): denied" = true ∧
    buildRemotePathCandidates "/a/b" = ["/a/b", "/b"] ∧
    envC1.fetchItem (itemByPathEndpoint "d" "/b") = Except.ok itemC1 ∧
    getDriveItem envC1 mappingC1 "/a/b" =
      (Except.error "Graph request failed (403): denied",
        [itemByPathEndpoint "d" "/a/b"]) := by
  refine ⟨by decide, by decide, ?_, ?_⟩
  · rfl
  · rfl

/-- Environment whose every item request fails with a 500 (a "fatal" class). -/
def envF500 : GraphEnv :=
  { fetchItem := fun _ => Except.error "Graph request failed (500): boom"
  , fetchDrives := fun _ => Except.ok []
  , fetchVersions := fun _ => Except.ok [] }

/-- A plain mapping without drive id, for the C1 witness. -/
def mappingC1b : Mapping :=
  { localRoot := "/r" }

/-- An explicit-drive mapping that also carries registry URL metadata, so
that the web-URL fallback is available after strategy 1 exhausts. -/
def mappingC1c : Mapping :=
  { localRoot := "/r", driveId := some "d", urlNamespace := some "https://c.com/docs" }

/-- Environment for the resolver-level C1 witness: every lookup against the
configured drive `d` 404s, but the enumerated drive `dw` (whose web URL
prefixes the registry target URL) resolves the item. -/
def envC1c : GraphEnv :=
  { fetchItem := fun url =>
      if url = itemByPathEndpoint "dw" "/f.txt" then Except.ok itemC1
      else Except.error "Graph request failed (404): nf"
  , fetchDrives := fun _ => Except.ok [{ id := "dw", webUrl := some "https://c.com/docs" }]
  , fetchVersions := fun _ => Except.ok [] }

/-- Like `envC1c`, but the web-URL fallback's lookup fails with a 500. -/
def envC1d : GraphEnv :=
  { fetchItem := fun url =>
      if url = itemByPathEndpoint "dw" "/f.txt" then
        Except.error "Graph request failed (500): boom"
      else Except.error "Graph request failed (404): nf"
  , fetchDrives := fun _ => Except.ok [{ id := "dw", webUrl := some "https://c.com/docs" }]
  , fetchVersions := fun _ => Except.ok [] }

/-- **C1 (amended).** Within strategies 1–3 a candidate failure cascades to
the next candidate exactly when it is classified as "not found" (the cascade
and abort directions are stated for both the explicit-drive and the
default-drive candidate loops); any other failure there — including "access
denied" — aborts `getDriveItem` at once without attempting further
candidates.  At the resolver level, a `getDriveItem` failure classified as
"not found" or "access denied" is caught and the web-URL fallback attempted
(its success is used), while an error that is neither class propagates
immediately, as does such an error arising inside the web-URL fallback. -/
theorem claim_C1_error_cascade :
    (∀ (env : GraphEnv) (d c : String) (rest : List String) (e : String),
      env.fetchItem (itemByPathEndpoint d c) = Except.error e →
      isGraphNotFound e = false →
      tryDrivePathCandidates env d (c :: rest) =
        (Except.error e, [itemByPathEndpoint d c])) ∧
    (∀ (env : GraphEnv) (d c : String) (rest : List String) (e : String),
      env.fetchItem (itemByPathEndpoint d c) = Except.error e →
      isGraphNotFound e = true →
      tryDrivePathCandidates env d (c :: rest) =
        ((tryDrivePathCandidates env d rest).1,
          itemByPathEndpoint d c :: (tryDrivePathCandidates env d rest).2)) ∧
    (∀ (env : GraphEnv) (c : String) (rest : List String) (e : String),
      env.fetchItem (myDriveItemEndpoint c) = Except.error e →
      isGraphNotFound e = false →
      tryMyDrivePathCandidates env (c :: rest) =
        (Except.error e, [myDriveItemEndpoint c])) ∧
    (∀ (env : GraphEnv) (c : String) (rest : List String) (e : String),
      env.fetchItem (myDriveItemEndpoint c) = Except.error e →
      isGraphNotFound e = true →
      tryMyDrivePathCandidates env (c :: rest) =
        ((tryMyDrivePathCandidates env rest).1,
          myDriveItemEndpoint c :: (tryMyDrivePathCandidates env rest).2)) ∧
    (∀ (env : GraphEnv) (mapping : Mapping) (relSegs : List String) (remotePath e : String),
      (getDriveItem env mapping remotePath).1 = Except.error e →
      isGraphNotFound e = false → isGraphAccessDenied e = false →
      resolveItem env mapping relSegs remotePath = Except.error e) ∧
    (∀ (env : GraphEnv) (mapping : Mapping) (relSegs : List String) (remotePath e : String)
        (item : GraphDriveItem),
      (getDriveItem env mapping remotePath).1 = Except.error e →
      (isGraphNotFound e = true ∨ isGraphAccessDenied e = true) →
      (getDriveItemByDriveWebUrl env mapping relSegs).1 = Except.ok item →
      resolveItem env mapping relSegs remotePath = Except.ok item) ∧
    (∀ (env : GraphEnv) (mapping : Mapping) (relSegs : List String) (remotePath e e2 : String),
      (getDriveItem env mapping remotePath).1 = Except.error e →
      (isGraphNotFound e = true ∨ isGraphAccessDenied e = true) →
      (getDriveItemByDriveWebUrl env mapping relSegs).1 = Except.error e2 →
      isGraphNotFound e2 = false → isGraphAccessDenied e2 = false →
      resolveItem env mapping relSegs remotePath = Except.error e2) := by
  refine ⟨?_, ?_, ?_, ?_, ?_, ?_, ?_⟩
  · intro env d c rest e hf hnf
    simp only [tryDrivePathCandidates, hf, hnf, Bool.false_eq_true, if_false]
  · intro env d c rest e hf hnf
    simp only [tryDrivePathCandidates, hf, hnf, if_true]
  · intro env c rest e hf hnf
    simp only [tryMyDrivePathCandidates, hf, hnf, Bool.false_eq_true, if_false]
  · intro env c rest e hf hnf
    simp only [tryMyDrivePathCandidates, hf, hnf, if_true]
  · intro env mapping relSegs remotePath e hget hnf had
    have h1 : ¬ isGraphNotFound e = true := by rw [hnf]; exact Bool.false_ne_true
    have h2 : ¬ isGraphAccessDenied e = true := by rw [had]; exact Bool.false_ne_true
    simp only [resolveItem, hget]
    rw [if_pos ⟨h1, h2⟩]
  · intro env mapping relSegs remotePath e item hget hclass hweb
    have hcond : ¬ (¬ isGraphNotFound e = true ∧ ¬ isGraphAccessDenied e = true) := by
      rcases hclass with h | h
      · exact fun hc => hc.1 h
      · exact fun hc => hc.2 h
    simp only [resolveItem, hget, hweb]
    rw [if_neg hcond]
  · intro env mapping relSegs remotePath e e2 hget hclass hweb hnf2 had2
    have hcond : ¬ (¬ isGraphNotFound e = true ∧ ¬ isGraphAccessDenied e = true) := by
      rcases hclass with h | h
      · exact fun hc => hc.1 h
      · exact fun hc => hc.2 h
    have h1 : ¬ isGraphNotFound e2 = true := by rw [hnf2]; exact Bool.false_ne_true
    have h2 : ¬ isGraphAccessDenied e2 = true := by rw [had2]; exact Bool.false_ne_true
    simp only [resolveItem, hget, hweb]
    rw [if_neg hcond, if_pos ⟨h1, h2⟩]

/-- Witness for the amended C1, exercising every resolver-level conjunct: the
403 aborts the explicit-drive candidate loop at once; a 404 cascades the
default-drive loop to the next candidate; a 500 from `getDriveItem`
propagates out of the resolver; `getDriveItem`'s own "itemNotFound"
exhaustion error (a not-found-class, non-access-denied error) is caught and
the web-URL fallback's resolved item is used; and a 500 arising inside the
web-URL fallback propagates out of the resolver. -/
theorem claim_C1_error_cascade_witness :
    tryDrivePathCandidates envC1 "d" ["/a/b", "/b"] =
      (Except.error "Graph request failed (403): denied",
        [itemByPathEndpoint "d" "/a/b"]) ∧
    tryMyDrivePathCandidates envW ["/a", "/b"] =
      ((tryMyDrivePathCandidates envW ["/b"]).1,
        myDriveItemEndpoint "/a" :: (tryMyDrivePathCandidates envW ["/b"]).2) ∧
    resolveItem envF500 mappingC1b ["x"] "/x" =
      Except.error "Graph request failed (500): boom" ∧
    (isGraphNotFound "itemNotFound: path was not found in configured drive mapping." = true ∧
      isGraphAccessDenied
        "itemNotFound: path was not found in configured drive mapping." = false ∧
      resolveItem envC1c mappingC1c ["f.txt"] "/f.txt" = Except.ok itemC1) ∧
    resolveItem envC1d mappingC1c ["f.txt"] "/f.txt" =
      Except.error "Graph request failed (500): boom" := by
  refine ⟨?_, ?_, ?_, ⟨by decide, by decide, ?_⟩, ?_⟩
  · exact claim_C1_error_cascade.1 envC1 "d" "/a/b" ["/b"]
      "Graph request failed (403): denied" rfl (by decide)
  · exact claim_C1_error_cascade.2.2.2.1 envW "/a" ["/b"]
      "Graph request failed (404): stub" rfl (by decide)
  · exact claim_C1_error_cascade.2.2.2.2.1 envF500 mappingC1b ["x"] "/x"
      "Graph request failed (500): boom" rfl (by decide) (by decide)
  · exact claim_C1_error_cascade.2.2.2.2.2.1 envC1c mappingC1c ["f.txt"] "/f.txt"
      "itemNotFound: path was not found in configured drive mapping." itemC1
      rfl (Or.inl (by decide)) rfl
  · exact claim_C1_error_cascade.2.2.2.2.2.2 envC1d mappingC1c ["f.txt"] "/f.txt"
      "itemNotFound: path was not found in configured drive mapping."
      "Graph request failed (500): boom" rfl (Or.inl (by decide)) rfl
      (by decide) (by decide)

/-- **C5.** After a successful `loadVersionsForFile` the stored version list is
the stable descending sort of the fetched list: non-increasing by parsed
modification timestamp, a permutation of the API's list, with equal-timestamp
entries retaining the API order (equal-key filtrations coincide).  And when the
API returns zero version entries for the resolved item, the call fails with the
explicit "no versions" error instead of constructing a context. -/
theorem claim_C5_versions_sorted (env : GraphEnv) (parseTime : String → Int)
    (baseCandidates : List Mapping) (cache : ContextCache) (localPath : String) :
    (∀ (ctx : VersionContext) (cache' : ContextCache),
      loadVersionsForFile env parseTime baseCandidates cache localPath =
        (Except.ok ctx, cache') →
      ctx.versions.Pairwise (fun a b =>
        parseTime b.lastModifiedDateTime ≤ parseTime a.lastModifiedDateTime) ∧
      ∀ vs, env.fetchVersions (versionsEndpoint ctx.driveId ctx.itemId) = Except.ok vs →
        ctx.versions.Perm vs ∧
        ∀ k : Int,
          ctx.versions.filter (fun v => parseTime v.lastModifiedDateTime = k) =
            vs.filter (fun v => parseTime v.lastModifiedDateTime = k)) ∧
    (∀ (mapping : Mapping) (relSegs : List String) (item : GraphDriveItem) (driveId : String),
      resolveBestMapping baseCandidates (pathResolve localPath) = some mapping →
      toRelativeSegments mapping (pathResolve localPath) = Except.ok relSegs →
      resolveItem env mapping relSegs (toRemotePath mapping relSegs) = Except.ok item →
      ((item.parentReference.bind (fun pr => pr.driveId)) <|> mapping.driveId) =
        some driveId →
      env.fetchVersions (versionsEndpoint driveId item.id) = Except.ok [] →
      loadVersionsForFile env parseTime baseCandidates cache localPath =
        (Except.error "No OneDrive versions were returned for this file.", cache)) := by
  constructor
  · intro ctx cache' h
    rcases loadVersionsForFile_cases env parseTime baseCandidates cache localPath with
      ⟨e0, heq⟩ | ⟨ctx0, vs0, heq, hfetch0, hver0, _, _⟩
    · rw [heq] at h
      exact absurd (congrArg Prod.fst h) (by simp)
    · rw [heq] at h
      have hctx : ctx0 = ctx := by
        have := congrArg Prod.fst h
        simpa using this
      subst hctx
      constructor
      · rw [hver0]
        exact stableSortDescBy_pairwise _ vs0
      · intro vs hfetch
        rw [hfetch0] at hfetch
        have hvs : vs0 = vs := by
          simpa using hfetch
        subst hvs
        constructor
        · rw [hver0]
          exact stableSortDescBy_perm _ vs0
        · intro k
          rw [hver0]
          exact stableSortDescBy_stable _ k vs0
  · intro mapping relSegs item driveId hm hr hi hd hv
    simp only [loadVersionsForFile, hm, hr, hi, hd, getVersions, hv]
    rw [if_pos (show (stableSortDescBy
      (fun v : GraphVersion => parseTime v.lastModifiedDateTime) []).isEmpty = true from rfl)]

/-- Environment identical to `envOk` but returning zero versions. -/
def envZero : GraphEnv :=
  { fetchItem := envOk.fetchItem
  , fetchDrives := envOk.fetchDrives
  , fetchVersions := fun _ => Except.ok [] }

/-- Witness for C5: the concrete successful load is sorted newest-first and is
a stable permutation of the fetched list; with zero versions the same pipeline
fails with the explicit "no versions" error. -/
theorem claim_C5_versions_sorted_witness :
    ctxOk.versions.Pairwise (fun a b =>
      ptOk b.lastModifiedDateTime ≤ ptOk a.lastModifiedDateTime) ∧
    ctxOk.versions.Perm
      [{ id := "v1", lastModifiedDateTime := "t1" },
       { id := "v2", lastModifiedDateTime := "t2" }] ∧
    loadVersionsForFile envZero ptOk [] [] "/home/u/OneDrive/docs/f.txt" =
      (Except.error "No OneDrive versions were returned for this file.", []) := by
  have h := (claim_C5_versions_sorted envOk ptOk [] [] "/home/u/OneDrive/docs/f.txt").1
    ctxOk (setEntry [] (pathResolve "/home/u/OneDrive/docs/f.txt") ctxOk) rfl
  refine ⟨h.1, (h.2 _ rfl).1, ?_⟩
  exact (claim_C5_versions_sorted envZero ptOk [] [] "/home/u/OneDrive/docs/f.txt").2
    { localRoot := "/home/u/OneDrive" } ["docs", "f.txt"] itemOk "dX" rfl rfl rfl rfl rfl

/-! ## Share-id formatting (C8) -/

theorem char_toNat_lt (c : Char) : c.toNat < 1114112 := by
  rcases c.valid with h | h
  · exact Nat.lt_trans h (by norm_num)
  · exact h.2

theorem utf8EncodeCodepoint_lt {n : Nat} (hn : n < 1114112) :
    ∀ b ∈ utf8EncodeCodepoint n, b < 256 := by
  intro b hb
  unfold utf8EncodeCodepoint at hb
  split_ifs at hb with h1 h2 h3 <;> simp only [List.mem_cons, List.mem_singleton,
    List.not_mem_nil, or_false] at hb
  · omega
  · rcases hb with rfl | rfl <;> omega
  · rcases hb with rfl | rfl | rfl <;> omega
  · rcases hb with rfl | rfl | rfl | rfl <;> omega

theorem utf8Bytes_lt (s : String) : ∀ b ∈ utf8Bytes s, b < 256 := by
  intro b hb
  unfold utf8Bytes at hb
  rcases List.mem_flatMap.mp hb with ⟨c, _, hbc⟩
  exact utf8EncodeCodepoint_lt (char_toNat_lt c) b hbc

theorem b64Index_ne_eq : ∀ n, n < 64 → b64Index n ≠ '=' := by
  decide

theorem base64Chunks_split :
    ∀ (bs : List Nat), (∀ b ∈ bs, b < 256) →
      ∃ body pad, base64Chunks bs = body ++ pad ∧
        (∀ c ∈ body, c ≠ '=') ∧ (∀ c ∈ pad, c = '=')
  | [], _ => ⟨[], [], rfl, by intro c hc; exact absurd hc (List.not_mem_nil c),
      by intro c hc; exact absurd hc (List.not_mem_nil c)⟩
  | [b0], h => by
      have hb0 : b0 < 256 := h b0 (List.mem_singleton.mpr rfl)
      refine ⟨[b64Index (b0 / 4), b64Index (b0 % 4 * 16)], ['=', '='], rfl, ?_, ?_⟩
      · intro c hc
        rcases List.mem_cons.mp hc with rfl | hc
        · exact b64Index_ne_eq _ (by omega)
        · rcases List.mem_singleton.mp hc with rfl
          exact b64Index_ne_eq _ (by omega)
      · intro c hc
        rcases List.mem_cons.mp hc with rfl | hc
        · rfl
        · exact List.mem_singleton.mp hc
  | [b0, b1], h => by
      have hb0 : b0 < 256 := h b0 (by simp)
      have hb1 : b1 < 256 := h b1 (by simp)
      refine ⟨[b64Index (b0 / 4), b64Index (b0 % 4 * 16 + b1 / 16), b64Index (b1 % 16 * 4)],
        ['='], rfl, ?_, ?_⟩
      · intro c hc
        rcases List.mem_cons.mp hc with rfl | hc
        · exact b64Index_ne_eq _ (by omega)
        rcases List.mem_cons.mp hc with rfl | hc
        · exact b64Index_ne_eq _ (by omega)
        rcases List.mem_singleton.mp hc with rfl
        exact b64Index_ne_eq _ (by omega)
      · intro c hc
        exact List.mem_singleton.mp hc
  | b0 :: b1 :: b2 :: rest, h => by
      have hb0 : b0 < 256 := h b0 (by simp)
      have hb1 : b1 < 256 := h b1 (by simp)
      have hb2 : b2 < 256 := h b2 (by simp)
      obtain ⟨body, pad, heq, hbody, hpad⟩ :=
        base64Chunks_split rest (fun b hb => h b (by simp [hb]))
      refine ⟨b64Index (b0 / 4) :: b64Index (b0 % 4 * 16 + b1 / 16) ::
        b64Index (b1 % 16 * 4 + b2 / 64) :: b64Index (b2 % 64) :: body, pad, ?_, ?_, hpad⟩
      · show b64Index (b0 / 4) :: b64Index (b0 % 4 * 16 + b1 / 16) ::
          b64Index (b1 % 16 * 4 + b2 / 64) :: b64Index (b2 % 64) :: base64Chunks rest = _
        rw [heq]
        rfl
      · intro c hc
        rcases List.mem_cons.mp hc with rfl | hc
        · exact b64Index_ne_eq _ (by omega)
        rcases List.mem_cons.mp hc with rfl | hc
        · exact b64Index_ne_eq _ (by omega)
        rcases List.mem_cons.mp hc with rfl | hc
        · exact b64Index_ne_eq _ (by omega)
        rcases List.mem_cons.mp hc with rfl | hc
        · exact b64Index_ne_eq _ (by omega)
        exact hbody c hc

theorem dropWhile_append_all {p : Char → Bool} :
    ∀ (xs ys : List Char), (∀ x ∈ xs, p x = true) →
      (xs ++ ys).dropWhile p = ys.dropWhile p := by
  intro xs ys h
  induction xs with
  | nil => rfl
  | cons x xt ih =>
      rw [List.cons_append, List.dropWhile_cons_of_pos (h x (List.mem_cons_self x xt))]
      exact ih (fun x' hx' => h x' (List.mem_cons_of_mem x hx'))

theorem dropWhile_eq_self_of_none {p : Char → Bool} {l : List Char}
    (h : ∀ c ∈ l, ¬ p c = true) : l.dropWhile p = l := by
  cases l with
  | nil => rfl
  | cons c t =>
      exact List.dropWhile_cons_of_neg (h c (List.mem_cons_self c t))

theorem stripTrailingEq_body_pad (body pad : List Char)
    (hbody : ∀ c ∈ body, c ≠ '=') (hpad : ∀ c ∈ pad, c = '=') :
    stripTrailingEq (String.mk (body ++ pad)) = String.mk body := by
  unfold stripTrailingEq
  congr 1
  show ((body ++ pad).reverse.dropWhile (fun c => c == '=')).reverse = body
  rw [List.reverse_append]
  rw [dropWhile_append_all pad.reverse body.reverse
    (fun x hx => by rw [hpad x (List.mem_reverse.mp hx)]; rfl)]
  rw [dropWhile_eq_self_of_none (fun c hc => by
    have := hbody c (List.mem_reverse.mp hc)
    simpa using this)]
  exact List.reverse_reverse body

theorem base64UrlNoPad_no_eq (bs : List Nat) (h : ∀ b ∈ bs, b < 256) :
    ∀ c ∈ (base64UrlNoPad bs).data, c ≠ '=' := by
  obtain ⟨body, pad, heq, hbody, hpad⟩ := base64Chunks_split bs h
  have hmb : ∀ c ∈ body.map base64UrlReplace, c ≠ '=' := by
    intro c hc
    rcases List.mem_map.mp hc with ⟨c', hc', rfl⟩
    have hne := hbody c' hc'
    unfold base64UrlReplace
    split_ifs with h1 h2
    · decide
    · decide
    · exact hne
  have hmp : ∀ c ∈ pad.map base64UrlReplace, c = '=' := by
    intro c hc
    rcases List.mem_map.mp hc with ⟨c', hc', rfl⟩
    rw [hpad c' hc']
    rfl
  have hrw : base64UrlNoPad bs =
      stripTrailingEq (String.mk ((base64Chunks bs).map base64UrlReplace)) := rfl
  rw [hrw, heq, List.map_append,
    stripTrailingEq_body_pad _ _ hmb hmp]
  exact hmb

/-- **C8.** For every URL, `toGraphShareId` produces `u!` followed by the
unpadded base64url encoding of the URL's UTF-8 bytes: it always starts with
the fixed `u!` prefix and never contains an `=` padding character. -/
theorem claim_C8_share_id_format (webUrl : String) :
    toGraphShareId webUrl = "u!" ++ base64UrlNoPad (utf8Bytes webUrl) ∧
    startsWithStr (toGraphShareId webUrl) "u!" = true ∧
    ∀ c ∈ (toGraphShareId webUrl).data, c ≠ '=' := by
  have hdata : (toGraphShareId webUrl).data =
      'u' :: '!' :: (base64UrlNoPad (utf8Bytes webUrl)).data := by
    show ("u!" ++ base64UrlNoPad (utf8Bytes webUrl)).data = _
    rw [String.data_append]
    rfl
  refine ⟨rfl, ?_, ?_⟩
  · show ("u!".data.isPrefixOf (toGraphShareId webUrl).data) = true
    rw [hdata]
    simp [List.isPrefixOf]
  · intro c hc
    rw [hdata] at hc
    rcases List.mem_cons.mp hc with rfl | hc
    · decide
    rcases List.mem_cons.mp hc with rfl | hc
    · decide
    exact base64UrlNoPad_no_eq (utf8Bytes webUrl) (utf8Bytes_lt webUrl) c hc

end OneDriveVersions
